import Mathlib

/-!
# Verification of the async-cni invocation engine

A shallow embedding of the `async-cni` repository (a client-side CNI runtime):
the JSON data model (`serde_json::Value` with `BTreeMap`-backed objects), the
config codec (`src/plugins.rs` and the earlier iteration `src/data.rs`), the
typed output schemas (`src/types.rs`), and the two iterations of the
invocation engine (`src/lib.rs` and `src/runtime.rs`).

Modelling conventions:
* `serde_json::Value` objects are association lists with keys kept in strictly
  increasing order (the canonical form a `BTreeMap` produces), so equality of
  `Json` values is equality of documents modulo key ordering and whitespace.
* JSON numbers are modelled as `Int`; no claim depends on float semantics.
* Byte-level checks of the Rust code (`as_bytes`) are modelled at `Char`
  level; the verdicts coincide because multi-byte characters fail both the
  byte-level ASCII tests and the char-level ASCII tests.
* IP-address and CIDR textual validation (the external `std::net` / `cidr`
  crates) is abstracted: such fields accept any JSON string. No claim
  inspects these fields.
-/

namespace AsyncCni

/-- Model of `serde_json::Value`. Objects are association lists; a value
produced by serde has strictly sorted, duplicate-free keys (`BTreeMap`). -/
inductive Json where
  | null : Json
  | bool (b : Bool) : Json
  | num (n : Int) : Json
  | str (s : String) : Json
  | arr (elems : List Json) : Json
  | obj (kvs : List (String × Json)) : Json

mutual

/-- Decidable equality for `Json` (the nested inductive prevents deriving). -/
def Json.decEq : (a b : Json) → Decidable (a = b)
  | .null, .null => isTrue rfl
  | .bool a, .bool b =>
    if h : a = b then isTrue (by rw [h]) else isFalse (fun hh => h (by cases hh; rfl))
  | .num a, .num b =>
    if h : a = b then isTrue (by rw [h]) else isFalse (fun hh => h (by cases hh; rfl))
  | .str a, .str b =>
    if h : a = b then isTrue (by rw [h]) else isFalse (fun hh => h (by cases hh; rfl))
  | .arr xs, .arr ys =>
    match Json.decEqList xs ys with
    | isTrue h => isTrue (by rw [h])
    | isFalse h => isFalse (fun hh => h (by cases hh; rfl))
  | .obj xs, .obj ys =>
    match Json.decEqKvs xs ys with
    | isTrue h => isTrue (by rw [h])
    | isFalse h => isFalse (fun hh => h (by cases hh; rfl))
  | .null, .bool _ | .null, .num _ | .null, .str _ | .null, .arr _ | .null, .obj _
  | .bool _, .null | .bool _, .num _ | .bool _, .str _ | .bool _, .arr _ | .bool _, .obj _
  | .num _, .null | .num _, .bool _ | .num _, .str _ | .num _, .arr _ | .num _, .obj _
  | .str _, .null | .str _, .bool _ | .str _, .num _ | .str _, .arr _ | .str _, .obj _
  | .arr _, .null | .arr _, .bool _ | .arr _, .num _ | .arr _, .str _ | .arr _, .obj _
  | .obj _, .null | .obj _, .bool _ | .obj _, .num _ | .obj _, .str _ | .obj _, .arr _ =>
    isFalse (fun h => Json.noConfusion h)

/-- Decidable equality for lists of `Json`. -/
def Json.decEqList : (a b : List Json) → Decidable (a = b)
  | [], [] => isTrue rfl
  | [], _ :: _ => isFalse (fun h => List.noConfusion h)
  | _ :: _, [] => isFalse (fun h => List.noConfusion h)
  | x :: xs, y :: ys =>
    match Json.decEq x y with
    | isFalse h => isFalse (fun hh => h (by cases hh; rfl))
    | isTrue h1 =>
      match Json.decEqList xs ys with
      | isTrue h2 => isTrue (by rw [h1, h2])
      | isFalse h2 => isFalse (fun hh => h2 (by cases hh; rfl))

/-- Decidable equality for key-value lists of `Json`. -/
def Json.decEqKvs : (a b : List (String × Json)) → Decidable (a = b)
  | [], [] => isTrue rfl
  | [], _ :: _ => isFalse (fun h => List.noConfusion h)
  | _ :: _, [] => isFalse (fun h => List.noConfusion h)
  | (k, v) :: xs, (k', v') :: ys =>
    if hk : k = k' then
      match Json.decEq v v' with
      | isFalse h => isFalse (fun hh => h (by cases hh; rfl))
      | isTrue h1 =>
        match Json.decEqKvs xs ys with
        | isTrue h2 => isTrue (by rw [hk, h1, h2])
        | isFalse h2 => isFalse (fun hh => h2 (by cases hh; rfl))
    else isFalse (fun hh => hk (by cases hh; rfl))

end

instance : DecidableEq Json := Json.decEq

/-! ## Sorted association-list maps (model of `serde_json::Map`, i.e. `BTreeMap`)

The key order is code-point lexicographic (`Char.toNat`), which coincides
with the byte-wise UTF-8 order a Rust `BTreeMap<String, _>` uses. -/

/-- Lexicographic strict order on character lists by code point. -/
def charListLt : List Char → List Char → Bool
  | _, [] => false
  | [], _ :: _ => true
  | a :: as_, b :: bs =>
    if a.toNat < b.toNat then true
    else if b.toNat < a.toNat then false
    else charListLt as_ bs

/-- Strict string order: byte-wise UTF-8 order, i.e. code-point order. -/
def strLt (a b : String) : Bool := charListLt a.toList b.toList

theorem charListLt_irrefl (as_ : List Char) : charListLt as_ as_ = false := by
  induction as_ with
  | nil => rfl
  | cons a t ih => simp [charListLt, ih]

theorem charListLt_trans : ∀ {as_ bs cs : List Char},
    charListLt as_ bs = true → charListLt bs cs = true → charListLt as_ cs = true := by
  intro as_
  induction as_ with
  | nil =>
    intro bs cs h1 h2
    cases bs with
    | nil => cases h1
    | cons b bt =>
      cases cs with
      | nil => cases h2
      | cons c ct => rfl
  | cons a at_ ih =>
    intro bs cs h1 h2
    cases bs with
    | nil => cases h1
    | cons b bt =>
      cases cs with
      | nil => cases h2
      | cons c ct =>
        simp only [charListLt] at h1 h2 ⊢
        by_cases hab : a.toNat < b.toNat
        · by_cases hbc : b.toNat < c.toNat
          · simp [Nat.lt_trans hab hbc]
          · simp only [hbc, if_neg, if_false] at h2
            by_cases hcb : c.toNat < b.toNat
            · simp [hcb] at h2
            · have hbceq : b.toNat = c.toNat := Nat.le_antisymm (Nat.le_of_not_lt hcb) (Nat.le_of_not_lt hbc)
              simp [hbceq ▸ hab]
        · simp only [hab, if_neg, if_false] at h1
          by_cases hba : b.toNat < a.toNat
          · simp [hba] at h1
          · have habeq : a.toNat = b.toNat := Nat.le_antisymm (Nat.le_of_not_lt hba) (Nat.le_of_not_lt hab)
            by_cases hbc : b.toNat < c.toNat
            · simp [habeq ▸ hbc]
            · simp only [hbc, if_neg, if_false] at h2
              by_cases hcb : c.toNat < b.toNat
              · simp [hcb] at h2
              · have hbceq : b.toNat = c.toNat := Nat.le_antisymm (Nat.le_of_not_lt hcb) (Nat.le_of_not_lt hbc)
                have hat : charListLt at_ bt = true := by
                  simpa [habeq, Nat.lt_irrefl] using h1
                have hbt : charListLt bt ct = true := by
                  simpa [hbceq, Nat.lt_irrefl] using h2
                simp [habeq, hbceq, Nat.lt_irrefl, ih hat hbt]

theorem charToNat_inj {a b : Char} (h : a.toNat = b.toNat) : a = b :=
  Char.eq_of_val_eq (UInt32.eq_of_toBitVec_eq (BitVec.eq_of_toNat_eq h))

theorem charListLt_eq_of_not_not : ∀ {as_ bs : List Char},
    charListLt as_ bs = false → charListLt bs as_ = false → as_ = bs := by
  intro as_
  induction as_ with
  | nil =>
    intro bs h1 _
    cases bs with
    | nil => rfl
    | cons b bt => cases h1
  | cons a at_ ih =>
    intro bs h1 h2
    cases bs with
    | nil => cases h2
    | cons b bt =>
      simp only [charListLt] at h1 h2
      by_cases hab : a.toNat < b.toNat
      · simp [hab] at h1
      · by_cases hba : b.toNat < a.toNat
        · simp [hba] at h2
        · have habeq : a.toNat = b.toNat := Nat.le_antisymm (Nat.le_of_not_lt hba) (Nat.le_of_not_lt hab)
          have h1' : charListLt at_ bt = false := by
            simpa [hab, hba] using h1
          have h2' : charListLt bt at_ = false := by
            simpa [hab, hba] using h2
          rw [charToNat_inj habeq, ih h1' h2']

theorem strLt_irrefl (a : String) : strLt a a = false := charListLt_irrefl _

theorem strLt_trans {a b c : String} (h1 : strLt a b = true) (h2 : strLt b c = true) :
    strLt a c = true := charListLt_trans h1 h2

theorem strLt_eq_of_not_not {a b : String} (h1 : strLt a b = false)
    (h2 : strLt b a = false) : a = b := by
  have hdata := charListLt_eq_of_not_not h1 h2
  cases a with
  | mk da =>
    cases b with
    | mk db =>
      simp only [String.toList] at hdata
      rw [hdata]

theorem strLt_of_not_of_ne {a b : String} (h1 : strLt a b = false) (h2 : a ≠ b) :
    strLt b a = true := by
  by_cases h : strLt b a = true
  · exact h
  · exact absurd (strLt_eq_of_not_not h1 (Bool.eq_false_iff.mpr h)) h2

/-- `Map::get` / `Map::contains_key`: first binding of the key. -/
def mlookup (kvs : List (String × Json)) (k : String) : Option Json :=
  match kvs with
  | [] => none
  | (k', v) :: t => if k = k' then some v else mlookup t k

/-- `BTreeMap::insert`: ordered insert, replacing the binding if present. -/
def minsert (k : String) (v : Json) : List (String × Json) → List (String × Json)
  | [] => [(k, v)]
  | (k', v') :: t =>
    if k = k' then (k, v) :: t
    else if strLt k k' then (k, v) :: (k', v') :: t
    else (k', v') :: minsert k v t

/-- `BTreeMap::remove`, dropping the binding (the removed value is read with
`mlookup` beforehand). -/
def mremove (k : String) : List (String × Json) → List (String × Json)
  | [] => []
  | (k', v') :: t => if k = k' then t else (k', v') :: mremove k t

/-- Strictly increasing keys: the invariant of every map a `BTreeMap` yields. -/
def SortedKeys (kvs : List (String × Json)) : Prop :=
  kvs.Pairwise (fun a b => strLt a.1 b.1 = true)

instance : DecidablePred SortedKeys := fun kvs =>
  inferInstanceAs (Decidable (kvs.Pairwise _))

@[simp] theorem mlookup_nil (k : String) : mlookup [] k = none := rfl

theorem mlookup_cons (k k' : String) (v : Json) (t : List (String × Json)) :
    mlookup ((k', v) :: t) k = if k = k' then some v else mlookup t k := rfl

@[simp] theorem mlookup_minsert_self (k : String) (v : Json) (kvs : List (String × Json)) :
    mlookup (minsert k v kvs) k = some v := by
  induction kvs with
  | nil => simp [minsert, mlookup]
  | cons hd t ih =>
    obtain ⟨k', v'⟩ := hd
    by_cases h : k = k'
    · simp [minsert, h, mlookup]
    · by_cases hlt : strLt k k' = true
      · simp [minsert, h, hlt, mlookup]
      · simp [minsert, h, hlt, mlookup, ih]

@[simp] theorem mlookup_minsert_ne (k k' : String) (hne : k ≠ k') (v : Json)
    (kvs : List (String × Json)) :
    mlookup (minsert k' v kvs) k = mlookup kvs k := by
  induction kvs with
  | nil => simp [minsert, mlookup, hne]
  | cons hd t ih =>
    obtain ⟨k'', v''⟩ := hd
    by_cases h : k' = k''
    · subst h
      simp [minsert, mlookup, hne]
    · by_cases hlt : strLt k' k'' = true
      · simp [minsert, h, hlt, mlookup, hne]
      · by_cases hk : k = k''
        · simp [minsert, h, hlt, mlookup, hk]
        · simp [minsert, h, hlt, mlookup, hk, ih]

@[simp] theorem mlookup_mremove_ne (k k' : String) (hne : k ≠ k')
    (kvs : List (String × Json)) :
    mlookup (mremove k' kvs) k = mlookup kvs k := by
  induction kvs with
  | nil => simp [mremove]
  | cons hd t ih =>
    obtain ⟨k'', v''⟩ := hd
    by_cases h : k' = k''
    · subst h
      simp [mremove, mlookup, hne]
    · by_cases hk : k = k''
      · simp [mremove, mlookup, h, hk]
      · simp [mremove, mlookup, h, hk, ih]

theorem mem_minsert {a : String × Json} {k : String} {v : Json}
    {kvs : List (String × Json)} (h : a ∈ minsert k v kvs) :
    a = (k, v) ∨ a ∈ kvs := by
  induction kvs with
  | nil => simpa [minsert] using h
  | cons hd t ih =>
    obtain ⟨k', v'⟩ := hd
    by_cases hk : k = k'
    · simp only [minsert, hk, if_pos rfl] at h
      rcases List.mem_cons.mp h with h1 | h1
      · exact Or.inl (by simpa [hk] using h1)
      · exact Or.inr (List.mem_cons_of_mem _ h1)
    · by_cases hlt : strLt k k' = true
      · simp only [minsert, if_neg hk, if_pos hlt] at h
        rcases List.mem_cons.mp h with h1 | h1
        · exact Or.inl h1
        · exact Or.inr h1
      · simp only [minsert, if_neg hk, if_neg hlt] at h
        rcases List.mem_cons.mp h with h1 | h1
        · exact Or.inr (h1 ▸ List.mem_cons_self _ _)
        · rcases ih h1 with h2 | h2
          · exact Or.inl h2
          · exact Or.inr (List.mem_cons_of_mem _ h2)

theorem sortedKeys_minsert (k : String) (v : Json) {kvs : List (String × Json)}
    (h : SortedKeys kvs) : SortedKeys (minsert k v kvs) := by
  induction kvs with
  | nil => simp [minsert, SortedKeys]
  | cons hd t ih =>
    obtain ⟨k', v'⟩ := hd
    rw [SortedKeys, List.pairwise_cons] at h
    obtain ⟨hall, ht⟩ := h
    by_cases hk : k = k'
    · subst hk
      simp only [minsert, if_pos rfl]
      exact List.pairwise_cons.mpr ⟨hall, ht⟩
    · by_cases hlt : strLt k k' = true
      · simp only [minsert, if_neg hk, if_pos hlt]
        refine List.pairwise_cons.mpr ⟨?_, List.pairwise_cons.mpr ⟨hall, ht⟩⟩
        intro b hb
        rcases List.mem_cons.mp hb with rfl | hb
        · exact hlt
        · exact strLt_trans hlt (hall b hb)
      · have hgt : strLt k' k = true :=
          strLt_of_not_of_ne (Bool.eq_false_iff.mpr hlt) hk
        simp only [minsert, if_neg hk, if_neg hlt]
        refine List.pairwise_cons.mpr ⟨?_, ih ht⟩
        intro b hb
        rcases mem_minsert hb with rfl | hb
        · exact hgt
        · exact hall b hb

theorem mlookup_eq_none_of_forall_ne {kvs : List (String × Json)} {k : String}
    (h : ∀ a ∈ kvs, a.1 ≠ k) : mlookup kvs k = none := by
  induction kvs with
  | nil => rfl
  | cons hd t ih =>
    obtain ⟨k', v'⟩ := hd
    have h1 : k' ≠ k := h (k', v') (List.mem_cons_self _ _)
    simp only [mlookup, if_neg (Ne.symm h1)]
    exact ih (fun a ha => h a (List.mem_cons_of_mem _ ha))

/-- Extensionality: two strictly sorted maps with the same lookups are equal. -/
theorem sorted_ext {l l' : List (String × Json)} (hl : SortedKeys l)
    (hl' : SortedKeys l') (h : ∀ k, mlookup l k = mlookup l' k) : l = l' := by
  induction l generalizing l' with
  | nil =>
    cases l' with
    | nil => rfl
    | cons hd t =>
      obtain ⟨k, v⟩ := hd
      have := h k
      simp [mlookup] at this
  | cons hd t ih =>
    obtain ⟨k, v⟩ := hd
    cases l' with
    | nil =>
      have := h k
      simp [mlookup] at this
    | cons hd' t' =>
      obtain ⟨k', v'⟩ := hd'
      rw [SortedKeys, List.pairwise_cons] at hl hl'
      obtain ⟨hall, ht⟩ := hl
      obtain ⟨hall', ht'⟩ := hl'
      have hkk : k = k' := by
        by_contra hne
        by_cases h1 : strLt k k' = true
        · -- k precedes every key in l', yet l has a binding at k
          have := h k
          rw [mlookup_cons, if_pos rfl] at this
          have hnone : mlookup ((k', v') :: t') k = none := by
            apply mlookup_eq_none_of_forall_ne
            intro a ha
            rcases List.mem_cons.mp ha with rfl | ha
            · exact fun he => absurd (he ▸ h1) (by simp [strLt_irrefl])
            · intro he
              exact absurd (he ▸ strLt_trans h1 (hall' a ha)) (by simp [strLt_irrefl])
          rw [hnone] at this
          exact Option.noConfusion this
        · have h1' : strLt k' k = true :=
            strLt_of_not_of_ne (Bool.eq_false_iff.mpr h1) hne
          have := h k'
          rw [mlookup_cons k' k v t,
            if_neg (fun he => absurd (he ▸ h1') (by simp [strLt_irrefl]))] at this
          rw [mlookup_cons, if_pos rfl] at this
          have hnone : mlookup t k' = none := by
            apply mlookup_eq_none_of_forall_ne
            intro a ha
            intro he
            exact absurd (he ▸ strLt_trans h1' (hall a ha)) (by simp [strLt_irrefl])
          rw [hnone] at this
          exact Option.noConfusion this
      subst hkk
      have hvv : v = v' := by
        have := h k
        rw [mlookup_cons, if_pos rfl, mlookup_cons, if_pos rfl] at this
        exact Option.some.inj this
      subst hvv
      congr 1
      apply ih ht ht'
      intro k''
      by_cases hk'' : k'' = k
      · subst hk''
        have hn : mlookup t k'' = none :=
          mlookup_eq_none_of_forall_ne
            (fun a ha he => absurd (he ▸ hall a ha) (by simp [strLt_irrefl]))
        have hn' : mlookup t' k'' = none :=
          mlookup_eq_none_of_forall_ne
            (fun a ha he => absurd (he ▸ hall' a ha) (by simp [strLt_irrefl]))
        rw [hn, hn']
      · have := h k''
        rwa [mlookup_cons, if_neg hk'', mlookup_cons, if_neg hk''] at this

/-! ## `src/types.rs`: value objects and output schemas -/

/-- `CniValidationError` from `src/types.rs`. `SplitNotParseable`'s
`ParseIntError` payload is dropped (no claim inspects it). -/
inductive CniValidationError where
  | IsEmptyOrBlank
  | FirstIsNotAlphabetic
  | ContainsForbiddenCharacter
  | TooLong (maximum_allowed : Nat)
  | IsForbiddenValue
  | IncorrectSplitAmount
  | SplitMissing
  | SplitNotParseable
  deriving DecidableEq

/-- `CniOperation` from `src/types.rs`. -/
inductive CniOperation where
  | Add | Delete | Check | Version | Status | GarbageCollect
  deriving DecidableEq

/-- Rust `s.trim().is_empty()`: every character is whitespace. (Computed
without `String.trim`, whose well-founded recursion blocks kernel
evaluation.) -/
def isBlank (s : String) : Bool := s.toList.all Char.isWhitespace

/-- Rust `str::split(sep)` over the characters of a string (e.g.
`"".split('.')` is `[""]` and `".".split('.')` is `["", ""]`). -/
def splitOnChar (sep : Char) : List Char → List Char → List String
  | [], acc => [String.mk acc.reverse]
  | c :: rest, acc =>
    if c = sep then String.mk acc.reverse :: splitOnChar sep rest []
    else splitOnChar sep rest (c :: acc)

/-- Rust `str::parse::<u8>()`: optional leading `+`, then one or more ASCII
digits, value at most 255. -/
def parseU8 (s : String) : Option Nat :=
  let cs :=
    match s.toList with
    | '+' :: rest => rest
    | cs => cs
  if cs.isEmpty then none
  else if cs.all Char.isDigit then
    let n := cs.foldl (fun acc c => acc * 10 + (c.toNat - 48)) 0
    if n ≤ 255 then some n else none
  else none

namespace CniVersion

/-- `CniVersion::new` from `src/types.rs`: `format!("{major}.{minor}.{patch}")`.
The `CniVersion` wrapper is modelled by its underlying string. -/
def new (major minor patch : Nat) : String :=
  toString major ++ "." ++ toString minor ++ "." ++ toString patch

/-- `CniVersion::parse_split` from `src/types.rs`. -/
def parse_split (splits : List String) (index : Nat) : Except CniValidationError Nat :=
  match splits.get? index with
  | none => .error .SplitMissing
  | some s =>
    match parseU8 s with
    | none => .error .SplitNotParseable
    | some n => .ok n

/-- `CniVersion::parse` from `src/types.rs`: exactly three `.`-separated
parts, each a decimal `u8`; the result is re-formatted via `new`. -/
def parse (value : String) : Except CniValidationError String := do
  let splits := splitOnChar '.' value.toList []
  if splits.length ≠ 3 then
    .error .IncorrectSplitAmount
  else do
    let major ← parse_split splits 0
    let minor ← parse_split splits 1
    let patch ← parse_split splits 2
    .ok (new major minor patch)

end CniVersion

/-- `CniContainerId::new` from `src/types.rs`; the wrapper is modelled by its
underlying string. Byte-level checks are modelled at char level (verdicts
coincide, see the header note). -/
def CniContainerId.new (container_id : String) : Except CniValidationError String :=
  if isBlank container_id then .error .IsEmptyOrBlank
  else
    match container_id.toList with
    | [] => .error .IsEmptyOrBlank
    | c :: _ =>
      if ¬c.isAlpha then .error .FirstIsNotAlphabetic
      else if container_id.toList.all
          (fun c => c.isAlphanum || c = '.' || c = '_' || c = '-') then
        .ok container_id
      else .error .ContainsForbiddenCharacter

/-- `CniName::new` from `src/types.rs`; the wrapper is modelled by its
underlying string. -/
def CniName.new (name : String) : Except CniValidationError String :=
  if isBlank name then .error .IsEmptyOrBlank
  else
    match name.toList with
    | [] => .error .IsEmptyOrBlank
    | c :: _ =>
      if ¬c.isAlpha then .error .FirstIsNotAlphabetic
      else if name.toList.all Char.isAlphanum then .ok name
      else .error .ContainsForbiddenCharacter

/-- `IFNAME_MAX_LENGTH` from `src/types.rs`. -/
def IFNAME_MAX_LENGTH : Nat := 15

/-- `CniInterfaceName::new` from `src/types.rs`; the wrapper is modelled by
its underlying string. `len()` counts UTF-8 bytes. -/
def CniInterfaceName.new (interface_name : String) : Except CniValidationError String :=
  if isBlank interface_name then .error .IsEmptyOrBlank
  else if interface_name.utf8ByteSize > IFNAME_MAX_LENGTH then
    .error (.TooLong IFNAME_MAX_LENGTH)
  else if interface_name = "." ∨ interface_name = ".." then .error .IsForbiddenValue
  else if interface_name.toList.any (fun c => c = ' ' ∨ c = ':' ∨ c = '/') then
    .error .ContainsForbiddenCharacter
  else .ok interface_name

/-- `CniAttachmentInterface` from `src/types.rs`. -/
structure CniAttachmentInterface where
  name : String
  mac : Option String
  mtu : Option Nat
  sandbox : Option String
  socket_path : Option String
  pci_id : Option String
  deriving DecidableEq

/-- `CniAttachmentIp` from `src/types.rs`. `IpInet` / `IpAddr` wire strings
are abstracted to plain strings. -/
structure CniAttachmentIp where
  address : String
  gateway : String
  interface : Nat
  deriving DecidableEq

/-- `CniAttachmentRoute` from `src/types.rs`. -/
structure CniAttachmentRoute where
  dst : String
  gw : Option String
  mtu : Option Nat
  advmss : Option Nat
  priority : Option Nat
  table : Option Nat
  scope : Option Nat
  deriving DecidableEq

/-- `CniAttachmentDns` from `src/types.rs`. -/
structure CniAttachmentDns where
  nameservers : List String
  domain : Option String
  search : List String
  options : List String
  deriving DecidableEq

/-- `CniAttachment` from `src/types.rs`. `cni_version` is the `CniVersion`
newtype, i.e. an arbitrary string under serde; `interfaces`/`ips`/`routes`
carry `#[serde(default)]`; `dns` is an `Option`. -/
structure CniAttachment where
  cni_version : String
  interfaces : List CniAttachmentInterface
  ips : List CniAttachmentIp
  routes : List CniAttachmentRoute
  dns : Option CniAttachmentDns
  deriving DecidableEq

/-- `CniVersionObject` from `src/types.rs`. -/
structure CniVersionObject where
  cni_version : String
  supported_versions : List String
  deriving DecidableEq

/-- `CniError` from `src/types.rs` (`code` is a `u16`). -/
structure CniError where
  cni_version : Option String
  code : Nat
  msg : String
  details : Option String
  deriving DecidableEq

/-- `CniValidAttachment` from `src/types.rs`. -/
structure CniValidAttachment where
  container_id : String
  interface_name : String
  deriving DecidableEq

/-! ### serde deserialization semantics for the derived `Deserialize` impls -/

/-- serde: deserialize a `String` (or the `CniVersion` newtype). -/
def asStr : Json → Option String
  | .str s => some s
  | _ => none

/-- serde: deserialize a `bool`. -/
def asBool : Json → Option Bool
  | .bool b => some b
  | _ => none

/-- serde: deserialize an unsigned integer bounded by `bound`. -/
def asUInt (bound : Nat) : Json → Option Nat
  | .num n => if 0 ≤ n ∧ n ≤ (bound : Int) then some n.toNat else none
  | _ => none

/-- serde: a required struct field — missing or unparseable fails. -/
def reqField (kvs : List (String × Json)) (k : String) (p : Json → Option α) : Option α :=
  (mlookup kvs k).bind p

/-- serde: an `Option<_>` struct field — missing or `null` is `none`. -/
def optField (kvs : List (String × Json)) (k : String) (p : Json → Option α) :
    Option (Option α) :=
  match mlookup kvs k with
  | none => some none
  | some .null => some none
  | some v => (p v).map some

/-- Traverse a parser over a list, failing if any element fails. -/
def traverseP (p : Json → Option α) : List Json → Option (List α)
  | [] => some []
  | x :: xs => do
    let a ← p x
    let as_ ← traverseP p xs
    pure (a :: as_)

/-- serde: a `#[serde(default)] Vec<_>` struct field — missing yields `[]`. -/
def vecDefaultField (kvs : List (String × Json)) (k : String) (p : Json → Option α) :
    Option (List α) :=
  match mlookup kvs k with
  | none => some []
  | some (.arr xs) => traverseP p xs
  | some _ => none

/-- serde deserialization of `CniAttachmentInterface` (unknown keys ignored). -/
def parseCniAttachmentInterface : Json → Option CniAttachmentInterface
  | .obj kvs => do
    let name ← reqField kvs "name" asStr
    let mac ← optField kvs "mac" asStr
    let mtu ← optField kvs "mtu" (asUInt 4294967295)
    let sandbox ← optField kvs "sandbox" asStr
    let socket_path ← optField kvs "socketPath" asStr
    let pci_id ← optField kvs "pciID" asStr
    pure ⟨name, mac, mtu, sandbox, socket_path, pci_id⟩
  | _ => none

/-- serde deserialization of `CniAttachmentIp`. -/
def parseCniAttachmentIp : Json → Option CniAttachmentIp
  | .obj kvs => do
    let address ← reqField kvs "address" asStr
    let gateway ← reqField kvs "gateway" asStr
    let interface ← reqField kvs "interface" (asUInt 4294967295)
    pure ⟨address, gateway, interface⟩
  | _ => none

/-- serde deserialization of `CniAttachmentRoute`. -/
def parseCniAttachmentRoute : Json → Option CniAttachmentRoute
  | .obj kvs => do
    let dst ← reqField kvs "dst" asStr
    let gw ← optField kvs "gw" asStr
    let mtu ← optField kvs "mtu" (asUInt 4294967295)
    let advmss ← optField kvs "advmss" (asUInt 4294967295)
    let priority ← optField kvs "priority" (asUInt 4294967295)
    let table ← optField kvs "table" (asUInt 4294967295)
    let scope ← optField kvs "scope" (asUInt 4294967295)
    pure ⟨dst, gw, mtu, advmss, priority, table, scope⟩
  | _ => none

/-- serde deserialization of `CniAttachmentDns`. -/
def parseCniAttachmentDns : Json → Option CniAttachmentDns
  | .obj kvs => do
    let nameservers ← vecDefaultField kvs "nameservers" asStr
    let domain ← optField kvs "domain" asStr
    let search ← vecDefaultField kvs "search" asStr
    let options ← vecDefaultField kvs "options" asStr
    pure ⟨nameservers, domain, search, options⟩
  | _ => none

/-- serde deserialization of `CniAttachment`: only `cniVersion` is required;
`interfaces`/`ips`/`routes` default to `[]` when missing, `dns` to `None`;
unknown keys are ignored (no `deny_unknown_fields`). -/
def parseCniAttachment : Json → Option CniAttachment
  | .obj kvs => do
    let cni_version ← reqField kvs "cniVersion" asStr
    let interfaces ← vecDefaultField kvs "interfaces" parseCniAttachmentInterface
    let ips ← vecDefaultField kvs "ips" parseCniAttachmentIp
    let routes ← vecDefaultField kvs "routes" parseCniAttachmentRoute
    let dns ← optField kvs "dns" parseCniAttachmentDns
    pure ⟨cni_version, interfaces, ips, routes, dns⟩
  | _ => none

/-- serde deserialization of `CniVersionObject`: both `cniVersion` and
`supportedVersions` are required; unknown keys are ignored. -/
def parseCniVersionObject : Json → Option CniVersionObject
  | .obj kvs => do
    let cni_version ← reqField kvs "cniVersion" asStr
    let supported_versions ←
      match mlookup kvs "supportedVersions" with
      | some (.arr xs) => traverseP asStr xs
      | _ => none
    pure ⟨cni_version, supported_versions⟩
  | _ => none

/-- serde deserialization of `CniError`: `code` (u16) and `msg` are required;
`cniVersion` and `details` are `Option`s; unknown keys are ignored. -/
def parseCniError : Json → Option CniError
  | .obj kvs => do
    let cni_version ← optField kvs "cniVersion" asStr
    let code ← reqField kvs "code" (asUInt 65535)
    let msg ← reqField kvs "msg" asStr
    let details ← optField kvs "details" asStr
    pure ⟨cni_version, code, msg, details⟩
  | _ => none

/-! ### serde serialization (`serde_json::to_value`); objects come out as
sorted `BTreeMap`s, so the key lists below are in sorted order -/

/-- serde: serialize an `Option<String>` field value (`None` becomes `null`). -/
def serOptStr : Option String → Json
  | none => .null
  | some s => .str s

/-- serde: serialize an `Option<u32>` field value. -/
def serOptNat : Option Nat → Json
  | none => .null
  | some n => .num n

/-- serde serialization of `CniAttachmentInterface`. -/
def interfaceToJson (i : CniAttachmentInterface) : Json :=
  .obj [("mac", serOptStr i.mac), ("mtu", serOptNat i.mtu), ("name", .str i.name),
        ("pciID", serOptStr i.pci_id), ("sandbox", serOptStr i.sandbox),
        ("socketPath", serOptStr i.socket_path)]

/-- serde serialization of `CniAttachmentIp`. -/
def ipToJson (i : CniAttachmentIp) : Json :=
  .obj [("address", .str i.address), ("gateway", .str i.gateway),
        ("interface", .num i.interface)]

/-- serde serialization of `CniAttachmentRoute`. -/
def routeToJson (r : CniAttachmentRoute) : Json :=
  .obj [("advmss", serOptNat r.advmss), ("dst", .str r.dst), ("gw", serOptStr r.gw),
        ("mtu", serOptNat r.mtu), ("priority", serOptNat r.priority),
        ("scope", serOptNat r.scope), ("table", serOptNat r.table)]

/-- serde serialization of `CniAttachmentDns`. -/
def dnsToJson (d : CniAttachmentDns) : Json :=
  .obj [("domain", serOptStr d.domain),
        ("nameservers", .arr (d.nameservers.map Json.str)),
        ("options", .arr (d.options.map Json.str)),
        ("search", .arr (d.search.map Json.str))]

/-- serde serialization of `CniAttachment` (`serde_json::to_value`); every
field is emitted, `dns: None` as `null`. -/
def attachmentToJson (a : CniAttachment) : Json :=
  .obj [("cniVersion", .str a.cni_version),
        ("dns", match a.dns with | none => .null | some d => dnsToJson d),
        ("interfaces", .arr (a.interfaces.map interfaceToJson)),
        ("ips", .arr (a.ips.map ipToJson)),
        ("routes", .arr (a.routes.map routeToJson))]

/-- serde serialization of `CniValidAttachment`. -/
def validAttachmentToJson (v : CniValidAttachment) : Json :=
  .obj [("containerID", .str v.container_id), ("ifname", .str v.interface_name)]

/-! ## `src/plugins.rs`: config model and codec -/

/-- `CniDeserializationError` from `src/plugins.rs` (the `io::Error` /
`serde_json::Error` payloads are dropped; no claim inspects them). -/
inductive CniDeserializationError where
  | FileError
  | SerdeError
  | RootIsNotObject
  | MissingKey
  | KeyOfWrongType
  | EmptyArray
  | MalformedName (e : CniValidationError)
  | MalformedVersion (e : CniValidationError)
  deriving DecidableEq

/-- `CniSerializationError` from `src/plugins.rs`. -/
inductive CniSerializationError where
  | FileError
  | SerdeError
  | OverlappingKey
  deriving DecidableEq

/-- `CniPlugin` from `src/plugins.rs`; `CniVersion`/`CniName` wrappers and
`serde_json::Map` are modelled as strings and sorted association lists. -/
structure CniPlugin where
  plugin_type : String
  args : Option (List (String × Json))
  capabilities : Option (List (String × Json))
  plugin_options : List (String × Json)
  deriving DecidableEq

/-- `CniPluginList` from `src/plugins.rs`. -/
structure CniPluginList where
  cni_version : String
  cni_versions : Option (List String)
  name : String
  disable_check : Bool
  disable_gc : Bool
  plugins : List CniPlugin
  deriving DecidableEq

/-- The key-routing loop of `CniPlugin::from_json_value` (`src/plugins.rs`
lines 164-185): walk the object's entries in order, routing `type`, `args`
and `capabilities` into their slots and every other key into
`plugin_options`. -/
def pluginKeyFold :
    List (String × Json) → Option String → Option (List (String × Json)) →
    Option (List (String × Json)) → List (String × Json) →
    Except CniDeserializationError
      (Option String × Option (List (String × Json)) ×
       Option (List (String × Json)) × List (String × Json))
  | [], t, a, c, o => .ok (t, a, c, o)
  | (key, value) :: rest, t, a, c, o =>
    if key = "type" then
      match value with
      | .str s => pluginKeyFold rest (some s) a c o
      | _ => .error .KeyOfWrongType
    else if key = "args" then
      match value with
      | .obj m => pluginKeyFold rest t (some m) c o
      | _ => .error .KeyOfWrongType
    else if key = "capabilities" then
      match value with
      | .obj m => pluginKeyFold rest t a (some m) o
      | _ => .error .KeyOfWrongType
    else pluginKeyFold rest t a c (minsert key value o)

/-- `CniPlugin::from_json_value` from `src/plugins.rs` (lines 152-195). -/
def CniPlugin.from_json_value (json_value : Json) : Except CniDeserializationError CniPlugin :=
  match json_value with
  | .obj kvs => do
    let (t, args, capabilities, plugin_options) ← pluginKeyFold kvs none none none []
    match t with
    | none => .error .MissingKey
    | some plugin_type => .ok ⟨plugin_type, args, capabilities, plugin_options⟩
  | _ => .error .KeyOfWrongType

/-- The `plugin_options` loop of `CniPlugin::to_json_value` (`src/plugins.rs`
lines 235-241): inserting each option, failing with `OverlappingKey` on
`args`, `capabilities` or `type`. -/
def emitOptions :
    List (String × Json) → List (String × Json) →
    Except CniSerializationError (List (String × Json))
  | [], m => .ok m
  | (key, value) :: rest, m =>
    if key = "args" ∨ key = "capabilities" ∨ key = "type" then .error .OverlappingKey
    else emitOptions rest (minsert key value m)

/-- `CniPlugin::to_json_value` from `src/plugins.rs` (lines 223-245). -/
def CniPlugin.to_json_value (p : CniPlugin) : Except CniSerializationError Json := do
  let map0 := minsert "type" (.str p.plugin_type) []
  let map1 := match p.args with
    | some args => minsert "args" (.obj args) map0
    | none => map0
  let map2 := match p.capabilities with
    | some capabilities => minsert "capabilities" (.obj capabilities) map1
    | none => map1
  let map3 ← emitOptions p.plugin_options map2
  .ok (.obj map3)

/-- The `cniVersions` element loop of `CniPluginList::from_json_value`
(`src/plugins.rs` lines 96-101): each element must be a string and parse as a
`CniVersion`. -/
def parseVersionElems : List Json → Except CniDeserializationError (List String)
  | [] => .ok []
  | x :: xs => do
    match x with
    | .str s =>
      match CniVersion.parse s with
      | .error e => .error (.MalformedVersion e)
      | .ok v => do
        let rest ← parseVersionElems xs
        .ok (v :: rest)
    | _ => .error .KeyOfWrongType

/-- The `plugins` element loop of `CniPluginList::from_json_value`
(`src/plugins.rs` lines 136-139). -/
def parsePluginElems : List Json → Except CniDeserializationError (List CniPlugin)
  | [] => .ok []
  | x :: xs => do
    let p ← CniPlugin.from_json_value x
    let rest ← parsePluginElems xs
    .ok (p :: rest)

/-- `CniPluginList::from_json_value` from `src/plugins.rs` (lines 80-150):
require an object, `remove` each recognized key in order, ignore leftovers. -/
def CniPluginList.from_json_value (json_value : Json) :
    Except CniDeserializationError CniPluginList :=
  match json_value with
  | .obj kvs0 => do
    let cni_version ←
      match mlookup kvs0 "cniVersion" with
      | none => .error CniDeserializationError.MissingKey
      | some v =>
        match asStr v with
        | none => .error CniDeserializationError.KeyOfWrongType
        | some s =>
          match CniVersion.parse s with
          | .error e => .error (CniDeserializationError.MalformedVersion e)
          | .ok v' => .ok v'
    let kvs1 := mremove "cniVersion" kvs0
    let cni_versions ←
      match mlookup kvs1 "cniVersions" with
      | none => .ok none
      | some v =>
        match v with
        | .arr elems => do
          let parsed_list ← parseVersionElems elems
          if parsed_list.isEmpty then .error CniDeserializationError.EmptyArray
          else .ok (some parsed_list)
        | _ => .error CniDeserializationError.KeyOfWrongType
    let kvs2 := mremove "cniVersions" kvs1
    let name ←
      match mlookup kvs2 "name" with
      | none => .error CniDeserializationError.MissingKey
      | some v =>
        match asStr v with
        | none => .error CniDeserializationError.KeyOfWrongType
        | some s =>
          match CniName.new s with
          | .error e => .error (CniDeserializationError.MalformedName e)
          | .ok n => .ok n
    let kvs3 := mremove "name" kvs2
    let disable_check ←
      match mlookup kvs3 "disableCheck" with
      | none => .ok false
      | some v =>
        match asBool v with
        | none => .error CniDeserializationError.KeyOfWrongType
        | some b => .ok b
    let kvs4 := mremove "disableCheck" kvs3
    let disable_gc ←
      match mlookup kvs4 "disableGC" with
      | none => .ok false
      | some v =>
        match asBool v with
        | none => .error CniDeserializationError.KeyOfWrongType
        | some b => .ok b
    let kvs5 := mremove "disableGC" kvs4
    let plugins ←
      match mlookup kvs5 "plugins" with
      | none => .error CniDeserializationError.MissingKey
      | some v =>
        match v with
        | .arr elems =>
          if elems.isEmpty then .error CniDeserializationError.EmptyArray
          else parsePluginElems elems
        | _ => .error CniDeserializationError.KeyOfWrongType
    .ok ⟨cni_version, cni_versions, name, disable_check, disable_gc, plugins⟩
  | _ => .error CniDeserializationError.RootIsNotObject

/-- The plugin-emit loop of `CniPluginList::to_json_value` (`src/plugins.rs`
lines 213-216). -/
def emitPluginElems : List CniPlugin → Except CniSerializationError (List Json)
  | [] => .ok []
  | p :: ps => do
    let j ← CniPlugin.to_json_value p
    let rest ← emitPluginElems ps
    .ok (j :: rest)

/-- `CniPluginList::to_json_value` from `src/plugins.rs` (lines 197-221). -/
def CniPluginList.to_json_value (l : CniPluginList) : Except CniSerializationError Json := do
  let map0 := minsert "cniVersion" (.str l.cni_version) []
  let map1 := match l.cni_versions with
    | some cni_versions => minsert "cniVersions" (.arr (cni_versions.map Json.str)) map0
    | none => map0
  let map2 := minsert "name" (.str l.name) map1
  let map3 := minsert "disableCheck" (.bool l.disable_check) map2
  let map4 := minsert "disableGC" (.bool l.disable_gc) map3
  let plugins ← emitPluginElems l.plugins
  .ok (.obj (minsert "plugins" (.arr plugins) map4))

/-! ## `src/data.rs`: the earlier codec iteration (with a reachable panic) -/

/-- `CniDeserializationError` from `src/data.rs`. -/
inductive DataDeserializationError where
  | FileError
  | SerdeError
  | RootIsNotObject
  | MissingKey
  | KeyOfWrongType
  | EmptyArray
  deriving DecidableEq

/-- The outcome of running a `src/data.rs` parse: success, a returned error,
or a Rust panic (from `.expect`). -/
inductive DataOutcome (α : Type) where
  | ok (a : α)
  | err (e : DataDeserializationError)
  | panicked (msg : String)
  deriving DecidableEq

/-- `Plugin` from `src/data.rs`. -/
structure DataPlugin where
  plugin_type : String
  args : Option (List (String × Json))
  capabilities : Option (List (String × Json))
  plugin_options : List (String × Json)
  deriving DecidableEq

/-- `PluginList` from `src/data.rs` (versions kept as raw strings). -/
structure DataPluginList where
  cni_version : String
  cni_versions : Option (List String)
  name : String
  disable_check : Bool
  disable_gc : Bool
  plugins : List DataPlugin
  deriving DecidableEq

/-- The key-routing loop of `Plugin::from_json` (`src/data.rs` lines 123-136).
Note the source's own slip, kept faithfully: a non-object `args` or
`capabilities` yields `MissingKey`, not `KeyOfWrongType`. -/
def dataPluginKeyFold :
    List (String × Json) → Option String → Option (List (String × Json)) →
    Option (List (String × Json)) → List (String × Json) →
    Except DataDeserializationError
      (Option String × Option (List (String × Json)) ×
       Option (List (String × Json)) × List (String × Json))
  | [], t, a, c, o => .ok (t, a, c, o)
  | (key, value) :: rest, t, a, c, o =>
    if key = "type" then
      match value with
      | .str s => dataPluginKeyFold rest (some s) a c o
      | _ => .error .KeyOfWrongType
    else if key = "args" then
      match value with
      | .obj m => dataPluginKeyFold rest t (some m) c o
      | _ => .error .MissingKey
    else if key = "capabilities" then
      match value with
      | .obj m => dataPluginKeyFold rest t a (some m) o
      | _ => .error .MissingKey
    else dataPluginKeyFold rest t a c (minsert key value o)

/-- `Plugin::from_json` from `src/data.rs` (lines 114-146). -/
def DataPlugin.from_json (json_value : Json) : Except DataDeserializationError DataPlugin :=
  match json_value with
  | .obj kvs => do
    let (t, args, capabilities, plugin_options) ← dataPluginKeyFold kvs none none none []
    match t with
    | none => .error .MissingKey
    | some plugin_type => .ok ⟨plugin_type, args, capabilities, plugin_options⟩
  | _ => .error .RootIsNotObject

/-- The `cniVersions` element mapping of `PluginList::from_json`
(`src/data.rs` lines 61-65): `val.as_str().expect(...)` panics on any
non-string element. -/
def dataExpectStrings : List Json → DataOutcome (List String)
  | [] => .ok []
  | x :: xs =>
    match x with
    | .str s =>
      match dataExpectStrings xs with
      | .ok rest => .ok (s :: rest)
      | .err e => .err e
      | .panicked m => .panicked m
    | _ => .panicked "CNI version inside list was not a string"

/-- The `plugins` element loop of `PluginList::from_json` (`src/data.rs`
lines 98-101). -/
def dataPluginElems : List Json → DataOutcome (List DataPlugin)
  | [] => .ok []
  | x :: xs =>
    match DataPlugin.from_json x with
    | .error e => .err e
    | .ok p =>
      match dataPluginElems xs with
      | .ok rest => .ok (p :: rest)
      | .err e => .err e
      | .panicked m => .panicked m

/-- `PluginList::from_json` from `src/data.rs` (lines 48-112); reads keys
with `get` (no removal), panics inside the `cniVersions` mapping. -/
def DataPluginList.from_json (json_value : Json) : DataOutcome DataPluginList :=
  match json_value with
  | .obj kvs =>
    match mlookup kvs "cniVersion" with
    | none => .err .MissingKey
    | some v =>
      match asStr v with
      | none => .err .KeyOfWrongType
      | some cni_version =>
        let versionsStep : DataOutcome (Option (List String)) :=
          match mlookup kvs "cniVersions" with
          | none => .ok none
          | some v' =>
            match v' with
            | .arr elems =>
              match dataExpectStrings elems with
              | .ok list => .ok (some list)
              | .err e => .err e
              | .panicked m => .panicked m
            | _ => .err .KeyOfWrongType
        match versionsStep with
        | .err e => .err e
        | .panicked m => .panicked m
        | .ok cni_versions =>
          if (cni_versions.map List.isEmpty).getD false then .err .EmptyArray
          else
            match mlookup kvs "name" with
            | none => .err .MissingKey
            | some nv =>
              match asStr nv with
              | none => .err .KeyOfWrongType
              | some name =>
                let checkStep : Except DataDeserializationError Bool :=
                  match mlookup kvs "disableCheck" with
                  | none => .ok false
                  | some bv =>
                    match asBool bv with
                    | none => .error .KeyOfWrongType
                    | some b => .ok b
                match checkStep with
                | .error e => .err e
                | .ok disable_check =>
                  let gcStep : Except DataDeserializationError Bool :=
                    match mlookup kvs "disableGC" with
                    | none => .ok false
                    | some bv =>
                      match asBool bv with
                      | none => .error .KeyOfWrongType
                      | some b => .ok b
                  match gcStep with
                  | .error e => .err e
                  | .ok disable_gc =>
                    match mlookup kvs "plugins" with
                    | none => .err .MissingKey
                    | some pv =>
                      match pv with
                      | .arr elems =>
                        if elems.isEmpty then .err .EmptyArray
                        else
                          match dataPluginElems elems with
                          | .ok plugins =>
                            .ok ⟨cni_version, cni_versions, name, disable_check,
                                 disable_gc, plugins⟩
                          | .err e => .err e
                          | .panicked m => .panicked m
                      | _ => .err .KeyOfWrongType
  | _ => .err .RootIsNotObject

/-! ## `src/invocation.rs`: invocation data model

Generic unordered string-keyed maps model `HashMap` (environment variables,
`version_objects`): insert replaces an existing binding or appends. -/

/-- `HashMap::get`. -/
def hlookup {α : Type} (l : List (String × α)) (k : String) : Option α :=
  match l with
  | [] => none
  | (k', v) :: t => if k = k' then some v else hlookup t k

/-- `HashMap::insert`: replace the binding if present, else add it. -/
def hinsert {α : Type} (l : List (String × α)) (k : String) (v : α) : List (String × α) :=
  match l with
  | [] => [(k, v)]
  | (k', v') :: t => if k = k' then (k, v) :: t else (k', v') :: hinsert t k v

@[simp] theorem hlookup_hinsert_self {α : Type} (l : List (String × α)) (k : String) (v : α) :
    hlookup (hinsert l k v) k = some v := by
  induction l with
  | nil => simp [hinsert, hlookup]
  | cons hd t ih =>
    obtain ⟨k', v'⟩ := hd
    by_cases h : k = k'
    · simp [hinsert, h, hlookup]
    · simp [hinsert, h, hlookup, ih]

@[simp] theorem hlookup_hinsert_ne {α : Type} (l : List (String × α)) {k k' : String}
    (hne : k ≠ k') (v : α) : hlookup (hinsert l k' v) k = hlookup l k := by
  induction l with
  | nil => simp [hinsert, hlookup, hne]
  | cons hd t ih =>
    obtain ⟨k'', v''⟩ := hd
    by_cases h : k' = k''
    · subst h
      simp [hinsert, hlookup, hne]
    · by_cases hk : k = k''
      · simp [hinsert, hlookup, h, hk]
      · simp [hinsert, hlookup, h, hk, ih]

/-- `CniInvocationResult` from `src/invocation.rs` (lines 21-25):
`version_objects` is a `HashMap<String, CniVersionObject>`. This is the shape
`src/runtime.rs` builds. -/
structure CniInvocationResult where
  attachment : Option CniAttachment
  version_objects : List (String × CniVersionObject)
  deriving DecidableEq

/-- `CniInvocationError` from `src/invocation.rs` (the `io::Error` and
`serde_json::Error` payloads are modelled as strings / dropped). -/
inductive CniInvocationError where
  | PluginNotFoundByLocator
  | InvokerFailed (cause : String)
  | JsonOperationFailed
  | PluginProducedUnrecognizableOutput (raw : String)
  | PluginProducedError (cause : CniError)
  deriving DecidableEq

/-- `CniInvocationArguments` as `src/lib.rs` reads it (fields per
`src/invocation.rs` lines 36-45 and the `overridden_cni_version` name used at
`src/lib.rs` line 183 and in `tests/dummy.rs`; the value-object wrappers and
`PathBuf` are erased to strings). -/
structure CniInvocationArguments where
  container_id : Option String
  net_ns : Option String
  interface_name : Option String
  paths : Option (List String)
  attachment : Option CniAttachment
  overridden_cni_version : Option String
  deriving DecidableEq

/-- `CniInvocationTarget` from `src/invocation.rs` (lines 96-104); the
`CniName` / `CniVersion` wrappers are erased to strings. -/
inductive CniInvocationTarget where
  | plugin (plugin : CniPlugin) (name : String) (cni_version : String)
  | pluginList (plugin_list : CniPluginList)
  deriving DecidableEq

/-- `CniInvocationOverrides` as used by `src/runtime.rs`: its declaration is
not under `src/`, but it is field-for-field the `CniInvocationArguments`
record of `src/invocation.rs` (same seven fields, same builder methods,
with the version field named `cni_version`), as `runtime.rs`'s reads and the
`merge_with` impl (lines 311-341) pin down. -/
structure CniInvocationOverrides where
  container_id : Option String
  net_ns : Option String
  interface_name : Option String
  paths : Option (List String)
  attachment : Option CniAttachment
  valid_attachments : Option (List CniValidAttachment)
  cni_version : Option String
  deriving DecidableEq

/-- `CniInvocationOverrides::new` (all fields unset). -/
def CniInvocationOverrides.new : CniInvocationOverrides :=
  ⟨none, none, none, none, none, none, none⟩

/-- `CniInvocationOverrides::merge_with` from `src/runtime.rs` (lines
311-341): every field set in `other` overwrites `self`'s. -/
def CniInvocationOverrides.merge_with (self other : CniInvocationOverrides) :
    CniInvocationOverrides where
  container_id := other.container_id.or self.container_id
  net_ns := other.net_ns.or self.net_ns
  interface_name := other.interface_name.or self.interface_name
  paths := other.paths.or self.paths
  attachment := other.attachment.or self.attachment
  valid_attachments := other.valid_attachments.or self.valid_attachments
  cni_version := other.cni_version.or self.cni_version

/-- `CniInvocation` as used by `src/runtime.rs`: the enum declaration is not
under `src/`; its variants and fields are reconstructed from the exhaustive
`match`es in `runtime.rs` (the `AsRef` impl at lines 223-253 and the
`From<CniInvocation> for CniInvocationOverrides` impl at lines 255-309),
wrappers erased to strings. -/
inductive CniInvocation where
  | Add (container_id : String) (net_ns : String) (interface_name : String)
      (paths : List String)
  | Delete (container_id : String) (net_ns : String) (interface_name : String)
      (attachment : CniAttachment) (paths : List String)
  | Check (container_id : String) (net_ns : String) (interface_name : String)
      (attachment : CniAttachment)
  | Status
  | Version
  | GarbageCollect (paths : List String) (valid_attachments : List CniValidAttachment)
  deriving DecidableEq

/-- `impl AsRef<str> for CniInvocation` from `src/runtime.rs` (lines 223-253). -/
def CniInvocation.as_ref : CniInvocation → String
  | .Add _ _ _ _ => "ADD"
  | .Delete _ _ _ _ _ => "DEL"
  | .Check _ _ _ _ => "CHECK"
  | .Status => "STATUS"
  | .Version => "VERSION"
  | .GarbageCollect _ _ => "GC"

/-- `impl From<CniInvocation> for CniInvocationOverrides` from
`src/runtime.rs` (lines 255-309). -/
def CniInvocation.toOverrides : CniInvocation → CniInvocationOverrides
  | .Add container_id net_ns interface_name paths =>
    { CniInvocationOverrides.new with
      container_id := some container_id, net_ns := some net_ns,
      interface_name := some interface_name, paths := some paths }
  | .Delete container_id net_ns interface_name attachment paths =>
    { CniInvocationOverrides.new with
      container_id := some container_id, net_ns := some net_ns,
      interface_name := some interface_name, attachment := some attachment,
      paths := some paths }
  | .Check container_id net_ns interface_name attachment =>
    { CniInvocationOverrides.new with
      container_id := some container_id, net_ns := some net_ns,
      interface_name := some interface_name, attachment := some attachment }
  | .GarbageCollect paths valid_attachments =>
    { CniInvocationOverrides.new with
      paths := some paths, valid_attachments := some valid_attachments }
  | .Status => CniInvocationOverrides.new
  | .Version => CniInvocationOverrides.new

/-- `CniOperation`'s textual token. Modelled from the spec: the
`AsRef<str>` impl for `CniOperation` that `src/lib.rs` line 85 calls is not
under `src/`; §3 of the spec pins the tokens (they coincide with
`CniInvocation::as_ref` in `src/runtime.rs`). -/
def CniOperation.as_ref : CniOperation → String
  | .Add => "ADD"
  | .Delete => "DEL"
  | .Check => "CHECK"
  | .Version => "VERSION"
  | .Status => "STATUS"
  | .GarbageCollect => "GC"

/-- A plugin's captured output: `raw` is the string the invoker returned
(`cni_output` in the source); `parsed` is the `serde_json` parse of `raw`
(`none` when `raw` is not valid JSON), so that
`serde_json::from_str::<T>(&raw)` factors as `parsed.bind parseT`. -/
structure CniOutput where
  raw : String
  parsed : Option Json
  deriving DecidableEq

/-- A `CniLocator` (`src/invocation.rs` lines 106-109): `locate` resolves a
plugin type to a path (paths modelled as strings). -/
def CniLocator : Type := String → Option String

/-- A `CniInvoker` (`src/invocation.rs` lines 144-152): `invoke` takes the
program path, the environment and the stdin document (its JSON value; the
text rendering is insignificant) and yields the captured output or an
`io::Error` (modelled as a string). -/
def CniInvoker : Type := String → List (String × String) → Json → Except String CniOutput

/-! ## `src/lib.rs`: the crate-root iteration of the invocation engine -/

namespace Lib

/-- The `CniInvocationResult` value `src/lib.rs` actually builds (lines
22-25): `version_objects: Vec::new()`, i.e. an unkeyed vector it `push`es
into (line 136) — unlike the `HashMap` declared in `src/invocation.rs`. -/
structure InvocationResult where
  attachment : Option CniAttachment
  version_objects : List CniVersionObject
  deriving DecidableEq

/-- The environment construction of `invoke_plugin` from `src/lib.rs` (lines
84-108). -/
def build_environment (operation : CniOperation)
    (invocation_arguments : CniInvocationArguments) : List (String × String) :=
  let environment : List (String × String) := []
  let environment := hinsert environment "CNI_COMMAND" operation.as_ref
  let environment :=
    match invocation_arguments.container_id with
    | some container_id => hinsert environment "CNI_CONTAINERID" container_id
    | none => environment
  let environment :=
    match invocation_arguments.net_ns with
    | some net_ns => hinsert environment "CNI_NETNS" net_ns
    | none => environment
  let environment :=
    match invocation_arguments.interface_name with
    | some interface_name => hinsert environment "CNI_IFNAME" interface_name
    | none => environment
  match invocation_arguments.paths with
  | some paths =>
    if ¬paths.isEmpty then
      hinsert environment "CNI_PATH" (String.intercalate ":" paths)
    else environment
  | none => environment

/-- The stdin map built by `derive_stdin` from `src/lib.rs` (lines 151-205):
the key-insertion sequence on top of the plugin's options. -/
def derive_stdin_map (plugin : CniPlugin)
    (invocation_arguments : CniInvocationArguments)
    (invocation_target : CniInvocationTarget)
    (previous_attachment : Option CniAttachment) : List (String × Json) :=
  let map := plugin.plugin_options
  let map := minsert "type" (.str plugin.plugin_type) map
  let network_name : String :=
    match invocation_target with
    | .plugin _ name _ => name
    | .pluginList plugin_list => plugin_list.name
  let map := minsert "name" (.str network_name) map
  let cni_version : String :=
    match invocation_target with
    | .plugin _ _ cni_version => cni_version
    | .pluginList plugin_list => plugin_list.cni_version
  let cni_version :=
    match invocation_arguments.overridden_cni_version with
    | some new_cni_version => new_cni_version
    | none => cni_version
  let map := minsert "cniVersion" (.str cni_version) map
  let map :=
    match plugin.capabilities with
    | some capabilities => minsert "runtimeConfig" (.obj capabilities) map
    | none => map
  let map :=
    match plugin.args with
    | some args => minsert "args" (.obj args) map
    | none => map
  match previous_attachment with
  | some attachment => minsert "prevResult" (attachmentToJson attachment) map
  | none => map

/-- `derive_stdin` from `src/lib.rs` (lines 151-205). The final
`serde_json::to_string_pretty` rendering is abstracted (it cannot fail on a
`Value`); the stdin document is returned as its JSON value. -/
def derive_stdin (plugin : CniPlugin) (invocation_arguments : CniInvocationArguments)
    (invocation_target : CniInvocationTarget)
    (previous_attachment : Option CniAttachment) : Except CniInvocationError Json :=
  .ok (.obj (derive_stdin_map plugin invocation_arguments invocation_target
    previous_attachment))

/-- `add_to_invocation_output` from `src/lib.rs` (lines 126-149): try
Attachment, then VersionObject (pushed onto the vector), then PluginError,
then the blank-output check. -/
def add_to_invocation_output (cni_output : CniOutput)
    (invocation_output : InvocationResult) :
    Except CniInvocationError InvocationResult :=
  match cni_output.parsed.bind parseCniAttachment with
  | some attachment => .ok { invocation_output with attachment := some attachment }
  | none =>
    match cni_output.parsed.bind parseCniVersionObject with
    | some version_object =>
      .ok { invocation_output with
            version_objects := invocation_output.version_objects ++ [version_object] }
    | none =>
      match cni_output.parsed.bind parseCniError with
      | some error => .error (.PluginProducedError error)
      | none =>
        if isBlank cni_output.raw then .ok invocation_output
        else .error (.PluginProducedUnrecognizableOutput cni_output.raw)

/-- `invoke_plugin` from `src/lib.rs` (lines 68-124). Note line 114: the
rolling `invocation_output.attachment` alone is passed as
`previous_attachment`; `invocation_arguments.attachment` is never read. -/
def invoke_plugin (invoker : CniInvoker) (locator : CniLocator)
    (operation : CniOperation) (plugin : CniPlugin)
    (invocation_arguments : CniInvocationArguments)
    (invocation_target : CniInvocationTarget)
    (invocation_output : InvocationResult) :
    Except CniInvocationError InvocationResult :=
  match locator plugin.plugin_type with
  | none => .error .PluginNotFoundByLocator
  | some location =>
    let environment := build_environment operation invocation_arguments
    match derive_stdin plugin invocation_arguments invocation_target
        invocation_output.attachment with
    | .error e => .error e
    | .ok stdin =>
      match invoker location environment stdin with
      | .error cause => .error (.InvokerFailed cause)
      | .ok cni_output => add_to_invocation_output cni_output invocation_output

/-- The iteration order of `invoke` from `src/lib.rs` (lines 44-48):
`plugins.iter().rev()` for `Delete`, declared order otherwise. -/
def plugin_iter (operation : CniOperation) (plugins : List CniPlugin) : List CniPlugin :=
  match operation with
  | .Delete => plugins.reverse
  | _ => plugins

/-- The `for` loop of `invoke` from `src/lib.rs` (lines 50-61), instrumented
with the list of plugins for which an invocation was attempted (first
component); `?` propagation aborts at the first failing step. -/
def walkPlugins
    (step : CniPlugin → InvocationResult → Except CniInvocationError InvocationResult) :
    List CniPlugin → InvocationResult →
    List CniPlugin × Except CniInvocationError InvocationResult
  | [], invocation_output => ([], .ok invocation_output)
  | plugin :: rest, invocation_output =>
    match step plugin invocation_output with
    | .ok next =>
      let r := walkPlugins step rest next
      (plugin :: r.1, r.2)
    | .error e => ([plugin], .error e)

/-- `invoke` from `src/lib.rs` (lines 15-66), restricted to a plugin-list
target, returning the invocation trace alongside the result. -/
def invokeList (invoker : CniInvoker) (locator : CniLocator)
    (operation : CniOperation) (invocation_arguments : CniInvocationArguments)
    (plugin_list : CniPluginList) :
    List CniPlugin × Except CniInvocationError InvocationResult :=
  walkPlugins
    (fun plugin st =>
      invoke_plugin invoker locator operation plugin invocation_arguments
        (.pluginList plugin_list) st)
    (plugin_iter operation plugin_list.plugins)
    ⟨none, []⟩

/-- `invoke` from `src/lib.rs` (lines 15-66): single-plugin targets run one
iteration; list targets run the loop. -/
def invoke (invoker : CniInvoker) (locator : CniLocator)
    (operation : CniOperation) (invocation_arguments : CniInvocationArguments)
    (invocation_target : CniInvocationTarget) :
    Except CniInvocationError InvocationResult :=
  match invocation_target with
  | .plugin plugin _ _ =>
    invoke_plugin invoker locator operation plugin invocation_arguments
      invocation_target ⟨none, []⟩
  | .pluginList plugin_list =>
    (invokeList invoker locator operation invocation_arguments plugin_list).2

end Lib

/-! ## `src/runtime.rs`: the overrides-based iteration of the engine -/

namespace Runtime

/-- The environment construction of `invoke_plugin` from `src/runtime.rs`
(lines 87-114): `CNI_COMMAND` from the invocation, the conditional variables
from the invocation's arguments merged with the explicit overrides (lines
90-91). -/
def build_environment (invocation : CniInvocation)
    (invocation_overrides : CniInvocationOverrides) : List (String × String) :=
  let environment : List (String × String) := []
  let environment := hinsert environment "CNI_COMMAND" invocation.as_ref
  let overrides := invocation.toOverrides.merge_with invocation_overrides
  let environment :=
    match overrides.container_id with
    | some container_id => hinsert environment "CNI_CONTAINERID" container_id
    | none => environment
  let environment :=
    match overrides.net_ns with
    | some net_ns => hinsert environment "CNI_NETNS" net_ns
    | none => environment
  let environment :=
    match overrides.interface_name with
    | some interface_name => hinsert environment "CNI_IFNAME" interface_name
    | none => environment
  match overrides.paths with
  | some paths =>
    if ¬paths.isEmpty then
      hinsert environment "CNI_PATH" (String.intercalate ":" paths)
    else environment
  | none => environment

/-- The stdin map built by `derive_stdin` from `src/runtime.rs` (lines
156-221): the key-insertion sequence on top of the plugin's options. -/
def derive_stdin_map (plugin : CniPlugin)
    (invocation_overrides : CniInvocationOverrides)
    (invocation_target : CniInvocationTarget)
    (previous_attachment : Option CniAttachment) : List (String × Json) :=
  let map := plugin.plugin_options
  let map := minsert "type" (.str plugin.plugin_type) map
  let network_name : String :=
    match invocation_target with
    | .plugin _ name _ => name
    | .pluginList plugin_list => plugin_list.name
  let map := minsert "name" (.str network_name) map
  let cni_version : String :=
    match invocation_target with
    | .plugin _ _ cni_version => cni_version
    | .pluginList plugin_list => plugin_list.cni_version
  let cni_version :=
    match invocation_overrides.cni_version with
    | some new_cni_version => new_cni_version
    | none => cni_version
  let map := minsert "cniVersion" (.str cni_version) map
  let map :=
    match plugin.capabilities with
    | some capabilities => minsert "runtimeConfig" (.obj capabilities) map
    | none => map
  let map :=
    match plugin.args with
    | some args => minsert "args" (.obj args) map
    | none => map
  let map :=
    match previous_attachment with
    | some attachment => minsert "prevResult" (attachmentToJson attachment) map
    | none => map
  match invocation_overrides.valid_attachments with
  | some valid_attachments =>
    minsert "cni.dev/valid-attachments"
      (.arr (valid_attachments.map validAttachmentToJson)) map
  | none => map

/-- `derive_stdin` from `src/runtime.rs` (lines 156-221): as the `lib.rs`
variant, plus the `cni.dev/valid-attachments` key for GC; the final
`serde_json::to_string` rendering is abstracted. -/
def derive_stdin (plugin : CniPlugin) (invocation_overrides : CniInvocationOverrides)
    (invocation_target : CniInvocationTarget)
    (previous_attachment : Option CniAttachment) : Except CniInvocationError Json :=
  .ok (.obj (derive_stdin_map plugin invocation_overrides invocation_target
    previous_attachment))

/-- `add_to_invocation_output` from `src/runtime.rs` (lines 128-154): try
VersionObject first (inserted into the map keyed by the plugin's type), then
Attachment, then PluginError, then the blank-output check. -/
def add_to_invocation_output (cni_output : CniOutput) (plugin : CniPlugin)
    (invocation_output : CniInvocationResult) :
    Except CniInvocationError CniInvocationResult :=
  match cni_output.parsed.bind parseCniVersionObject with
  | some version_object =>
    .ok { invocation_output with
          version_objects :=
            hinsert invocation_output.version_objects plugin.plugin_type version_object }
  | none =>
    match cni_output.parsed.bind parseCniAttachment with
    | some attachment => .ok { invocation_output with attachment := some attachment }
    | none =>
      match cni_output.parsed.bind parseCniError with
      | some error => .error (.PluginProducedError error)
      | none =>
        if isBlank cni_output.raw then .ok invocation_output
        else .error (.PluginProducedUnrecognizableOutput cni_output.raw)

/-- The stdin document `invoke_plugin` from `src/runtime.rs` sends (lines
90-91 and 116-117): the overrides' attachment, falling back to the rolling
result's attachment, is the `previous_attachment` fed to `derive_stdin`. -/
def stdin_map_for_step (invocation : CniInvocation)
    (invocation_overrides : CniInvocationOverrides) (plugin : CniPlugin)
    (invocation_target : CniInvocationTarget) (invocation_output : CniInvocationResult) :
    List (String × Json) :=
  let overrides := invocation.toOverrides.merge_with invocation_overrides
  let previous_attachment := overrides.attachment.or invocation_output.attachment
  derive_stdin_map plugin overrides invocation_target previous_attachment

/-- As `stdin_map_for_step`, wrapped the way `derive_stdin` returns it. -/
def stdin_for_step (invocation : CniInvocation)
    (invocation_overrides : CniInvocationOverrides) (plugin : CniPlugin)
    (invocation_target : CniInvocationTarget) (invocation_output : CniInvocationResult) :
    Except CniInvocationError Json :=
  .ok (.obj (stdin_map_for_step invocation invocation_overrides plugin
    invocation_target invocation_output))

end Runtime

/-! ## Claim C1 -/

/-- The plugin output of claim C1: the text
`\x7b"cniVersion":"1.0.0","code":5,"msg":"x"\x7d` and its parsed JSON value. -/
def outputC1 : CniOutput :=
  { raw := "\x7b\"cniVersion\":\"1.0.0\",\"code\":5,\"msg\":\"x\"\x7d",
    parsed := some (.obj [("cniVersion", .str "1.0.0"), ("code", .num 5),
                          ("msg", .str "x")]) }

/-- A plugin with type `p1` and nothing else, used as a concrete step. -/
def pluginP1 : CniPlugin := ⟨"p1", none, none, []⟩

/-- Claim C1: the claim says the JSON object
`\x7b"cniVersion":"1.0.0","code":5,"msg":"x"\x7d` aborts the walk with
`PluginProducedError` (code 5). The code does not: because every
`CniAttachment` field except `cniVersion` is optional or defaulted and serde
ignores unknown keys, both iterations of `add_to_invocation_output` classify
this output as an Attachment and continue the walk — even though the output
does parse as a `CniError` with code 5 (third conjunct), which is what the
`CniError` branch was written for. -/
theorem c1_error_object_is_classified_as_attachment :
    Lib.add_to_invocation_output outputC1 ⟨none, []⟩
      = .ok ⟨some ⟨"1.0.0", [], [], [], none⟩, []⟩
    ∧ Runtime.add_to_invocation_output outputC1 pluginP1 ⟨none, []⟩
      = .ok ⟨some ⟨"1.0.0", [], [], [], none⟩, []⟩
    ∧ parseCniError (.obj [("cniVersion", .str "1.0.0"), ("code", .num 5),
                           ("msg", .str "x")])
      = some ⟨some "1.0.0", 5, "x", none⟩ := by
  refine ⟨?_, ?_, ?_⟩ <;> rfl

/-! ## Claim C2 -/

/-- The plugin output of claim C2: a well-formed VERSION response,
`\x7b"cniVersion":"1.0.0","supportedVersions":["1.0.0"]\x7d`. -/
def outputC2 : CniOutput :=
  { raw := "\x7b\"cniVersion\":\"1.0.0\",\"supportedVersions\":[\"1.0.0\"]\x7d",
    parsed := some (.obj [("cniVersion", .str "1.0.0"),
                          ("supportedVersions", .arr [.str "1.0.0"])]) }

/-- Claim C2, counterexample: under the `src/lib.rs` classification
(Attachment tried first), the JSON object with `supportedVersions` and none
of `interfaces`/`ips`/`routes`/`dns` is classified as an Attachment —
`result.attachment` is set and nothing is recorded as a version object —
even though it parses as a `CniVersionObject` (second conjunct). This
falsifies the claim as a statement about every classification in the source. -/
theorem c2_counterexample_lib_classifies_version_output_as_attachment :
    Lib.add_to_invocation_output outputC2 ⟨none, []⟩
      = .ok ⟨some ⟨"1.0.0", [], [], [], none⟩, []⟩
    ∧ parseCniVersionObject (.obj [("cniVersion", .str "1.0.0"),
                                   ("supportedVersions", .arr [.str "1.0.0"])])
      = some ⟨"1.0.0", ["1.0.0"]⟩ := by
  exact ⟨rfl, rfl⟩

/-- Claim C2, amended: under the `src/runtime.rs` classification (which tries
VersionObject before Attachment), every plugin output whose JSON parses as a
`CniVersionObject` (a string `cniVersion` plus `supportedVersions` as an
array of strings) is recorded in `version_objects` keyed by the plugin's
type, and `result.attachment` is left unchanged. -/
theorem c2_amended_runtime_classifies_version_object
    (cni_output : CniOutput) (plugin : CniPlugin)
    (invocation_output : CniInvocationResult) (j : Json)
    (version_object : CniVersionObject)
    (hparsed : cni_output.parsed = some j)
    (hvo : parseCniVersionObject j = some version_object) :
    Runtime.add_to_invocation_output cni_output plugin invocation_output
      = .ok { invocation_output with
              version_objects :=
                hinsert invocation_output.version_objects plugin.plugin_type
                  version_object }
    ∧ ({ invocation_output with
         version_objects :=
           hinsert invocation_output.version_objects plugin.plugin_type
             version_object } : CniInvocationResult).attachment
      = invocation_output.attachment := by
  refine ⟨?_, rfl⟩
  simp [Runtime.add_to_invocation_output, hparsed, hvo]

/-- Witness for the amended C2 at the concrete VERSION response. -/
theorem c2_amended_runtime_classifies_version_object_witness :
    Runtime.add_to_invocation_output outputC2 pluginP1 ⟨none, []⟩
      = .ok ⟨none, [("p1", ⟨"1.0.0", ["1.0.0"]⟩)]⟩
    ∧ (⟨none, [("p1", ⟨"1.0.0", ["1.0.0"]⟩)]⟩ : CniInvocationResult).attachment
      = (⟨none, []⟩ : CniInvocationResult).attachment :=
  c2_amended_runtime_classifies_version_object outputC2 pluginP1 ⟨none, []⟩
    (.obj [("cniVersion", .str "1.0.0"), ("supportedVersions", .arr [.str "1.0.0"])])
    ⟨"1.0.0", ["1.0.0"]⟩ rfl rfl

/-! ## Claim C3 -/

/-- A concrete attachment used as a caller-supplied seed (e.g. for DEL). -/
def attachmentSeed : CniAttachment :=
  ⟨"1.0.0", [⟨"eth0", none, none, some "s", none, none⟩], [], [], none⟩

/-- Invocation arguments whose only set field is the seed `attachment`. -/
def argumentsC3 : CniInvocationArguments :=
  ⟨none, none, none, none, some attachmentSeed, none⟩

/-- Claim C3, counterexample: in `src/lib.rs`, `invoke_plugin` (line 114)
passes only the rolling `invocation_output.attachment` into `derive_stdin`;
`invocation_arguments.attachment` is never consulted. So on the first plugin
of a walk (rolling attachment still `none`) with a caller-seeded
`arguments.attachment`, the derived stdin has no `prevResult` key at all —
the claim requires it to be the seeded attachment. -/
theorem c3_counterexample_lib_ignores_seeded_attachment :
    mlookup
      (Lib.derive_stdin_map pluginP1 argumentsC3 (.plugin pluginP1 "net" "1.0.0")
        (⟨none, []⟩ : Lib.InvocationResult).attachment)
      "prevResult" = none
    ∧ argumentsC3.attachment = some attachmentSeed :=
  ⟨rfl, rfl⟩

/-- Claim C3, amended: in the `src/runtime.rs` iteration, the stdin sent for
a per-plugin step carries `prevResult` equal to the caller-supplied
attachment (from the invocation variant or the explicit overrides, the
latter winning) when one is set — even on the first plugin — else the
rolling `result.attachment` from a previous plugin of this walk, and the key
is omitted when neither exists (provided the plugin's options don't
themselves carry a `prevResult` key). In `src/lib.rs` the caller-supplied
attachment is ignored and only the rolling attachment is used. -/
theorem c3_amended_runtime_prev_result_selection
    (invocation : CniInvocation) (invocation_overrides : CniInvocationOverrides)
    (plugin : CniPlugin) (invocation_target : CniInvocationTarget)
    (invocation_output : CniInvocationResult)
    (hopts : mlookup plugin.plugin_options "prevResult" = none) :
    mlookup
      (Runtime.stdin_map_for_step invocation invocation_overrides plugin
        invocation_target invocation_output)
      "prevResult"
      = ((invocation.toOverrides.merge_with invocation_overrides).attachment.or
          invocation_output.attachment).map attachmentToJson := by
  simp only [Runtime.stdin_map_for_step, Runtime.derive_stdin_map]
  cases hva : (invocation.toOverrides.merge_with invocation_overrides).valid_attachments <;>
  cases hprev : (invocation.toOverrides.merge_with invocation_overrides).attachment.or
      invocation_output.attachment <;>
  cases hcap : plugin.capabilities <;>
  cases hargs : plugin.args <;>
  simp [hva, hprev, hcap, hargs, hopts,
    mlookup_minsert_ne "prevResult" "cni.dev/valid-attachments" (by decide),
    mlookup_minsert_ne "prevResult" "args" (by decide),
    mlookup_minsert_ne "prevResult" "runtimeConfig" (by decide),
    mlookup_minsert_ne "prevResult" "cniVersion" (by decide),
    mlookup_minsert_ne "prevResult" "name" (by decide),
    mlookup_minsert_ne "prevResult" "type" (by decide)]

/-- Witness for the amended C3: a CHECK invocation carrying a seeded
attachment propagates it as `prevResult` on the very first plugin. -/
theorem c3_amended_runtime_prev_result_selection_witness :
    mlookup
      (Runtime.stdin_map_for_step (.Check "c1" "ns" "eth0" attachmentSeed)
        CniInvocationOverrides.new pluginP1 (.plugin pluginP1 "net" "1.0.0")
        ⟨none, []⟩)
      "prevResult" = some (attachmentToJson attachmentSeed) :=
  (c3_amended_runtime_prev_result_selection (.Check "c1" "ns" "eth0" attachmentSeed)
    CniInvocationOverrides.new pluginP1 (.plugin pluginP1 "net" "1.0.0")
    ⟨none, []⟩ rfl).trans rfl

/-! ## Claim C7 -/

/-- Claim C7: the environment built for a plugin invocation
(`src/runtime.rs` lines 87-114) always carries `CNI_COMMAND` set to the
operation's token; `CNI_CONTAINERID`, `CNI_NETNS` and `CNI_IFNAME` are
present exactly when the corresponding (merged) argument is present;
`CNI_PATH` is present exactly when `paths` is present and non-empty (joined
with `:`); and no other variable is injected. -/
theorem c7_environment_construction
    (invocation : CniInvocation) (invocation_overrides : CniInvocationOverrides) :
    hlookup (Runtime.build_environment invocation invocation_overrides) "CNI_COMMAND"
      = some invocation.as_ref
    ∧ hlookup (Runtime.build_environment invocation invocation_overrides) "CNI_CONTAINERID"
      = (invocation.toOverrides.merge_with invocation_overrides).container_id
    ∧ hlookup (Runtime.build_environment invocation invocation_overrides) "CNI_NETNS"
      = (invocation.toOverrides.merge_with invocation_overrides).net_ns
    ∧ hlookup (Runtime.build_environment invocation invocation_overrides) "CNI_IFNAME"
      = (invocation.toOverrides.merge_with invocation_overrides).interface_name
    ∧ hlookup (Runtime.build_environment invocation invocation_overrides) "CNI_PATH"
      = (match (invocation.toOverrides.merge_with invocation_overrides).paths with
         | some paths =>
           if ¬paths.isEmpty then some (String.intercalate ":" paths) else none
         | none => none)
    ∧ ∀ k, k ≠ "CNI_COMMAND" → k ≠ "CNI_CONTAINERID" → k ≠ "CNI_NETNS" →
        k ≠ "CNI_IFNAME" → k ≠ "CNI_PATH" →
        hlookup (Runtime.build_environment invocation invocation_overrides) k = none := by
  simp only [Runtime.build_environment]
  generalize invocation.toOverrides.merge_with invocation_overrides = ov
  obtain ⟨ci, ns, ifn, pts, att, va, cv⟩ := ov
  refine ⟨?_, ?_, ?_, ?_, ?_, ?_⟩
  · cases ci <;> cases ns <;> cases ifn <;> cases pts <;>
      simp [hinsert, hlookup] <;> split_ifs <;> simp [hinsert, hlookup]
  · cases ci <;> cases ns <;> cases ifn <;> cases pts <;>
      simp [hinsert, hlookup] <;> split_ifs <;> simp [hinsert, hlookup]
  · cases ci <;> cases ns <;> cases ifn <;> cases pts <;>
      simp [hinsert, hlookup] <;> split_ifs <;> simp [hinsert, hlookup]
  · cases ci <;> cases ns <;> cases ifn <;> cases pts <;>
      simp [hinsert, hlookup] <;> split_ifs <;> simp [hinsert, hlookup]
  · cases ci <;> cases ns <;> cases ifn <;> cases pts <;>
      simp [hinsert, hlookup] <;> split_ifs <;> simp [hinsert, hlookup]
  · intro k h1 h2 h3 h4 h5
    cases ci <;> cases ns <;> cases ifn <;> cases pts <;>
      simp [hinsert, hlookup, h1, h2, h3, h4, h5] <;> split_ifs <;>
      simp [hinsert, hlookup, h1, h2, h3, h4, h5]

/-- Witness for C7 at a concrete GC invocation with empty `paths`:
`CNI_COMMAND` is set, and `CNI_PATH` is absent despite `paths = some []`,
as is the unrelated variable `HOME`. -/
theorem c7_environment_construction_witness :
    hlookup (Runtime.build_environment (.GarbageCollect [] [])
        CniInvocationOverrides.new) "CNI_COMMAND" = some "GC"
    ∧ hlookup (Runtime.build_environment (.GarbageCollect [] [])
        CniInvocationOverrides.new) "CNI_PATH" = none
    ∧ hlookup (Runtime.build_environment (.GarbageCollect [] [])
        CniInvocationOverrides.new) "HOME" = none :=
  ⟨(c7_environment_construction (.GarbageCollect [] []) CniInvocationOverrides.new).1,
   (c7_environment_construction (.GarbageCollect [] []) CniInvocationOverrides.new).2.2.2.2.1.trans
     rfl,
   (c7_environment_construction (.GarbageCollect [] []) CniInvocationOverrides.new).2.2.2.2.2
     "HOME" (by decide) (by decide) (by decide) (by decide) (by decide)⟩

/-! ## Claims C4 and C5: the chain walk -/

/-- If every per-plugin step succeeds, the walk attempts exactly the given
plugin sequence. -/
theorem walkPlugins_trace_of_ok
    (step : CniPlugin → Lib.InvocationResult → Except CniInvocationError Lib.InvocationResult)
    (h : ∀ p st, (step p st).isOk = true) :
    ∀ (l : List CniPlugin) (st : Lib.InvocationResult), (Lib.walkPlugins step l st).1 = l := by
  intro l
  induction l with
  | nil => intro st; rfl
  | cons p t ih =>
    intro st
    cases hstep : step p st with
    | ok st' => simp [Lib.walkPlugins, hstep, ih]
    | error e =>
      have := h p st
      rw [hstep] at this
      cases this

/-- A successful prefix of a walk composes: the walk of `l1 ++ l2` runs `l1`
to completion and continues with `l2` from the reached state. -/
theorem walkPlugins_append_ok
    (step : CniPlugin → Lib.InvocationResult → Except CniInvocationError Lib.InvocationResult)
    (l1 l2 : List CniPlugin) (st st' : Lib.InvocationResult)
    (h : Lib.walkPlugins step l1 st = (l1, .ok st')) :
    Lib.walkPlugins step (l1 ++ l2) st
      = (l1 ++ (Lib.walkPlugins step l2 st').1, (Lib.walkPlugins step l2 st').2) := by
  induction l1 generalizing st with
  | nil =>
    simp only [Lib.walkPlugins] at h
    have hst : st = st' := by
      have := congrArg Prod.snd h
      simpa using this
    subst hst
    simp
  | cons p t ih =>
    cases hstep : step p st with
    | error e =>
      simp only [Lib.walkPlugins, hstep] at h
      have h2 := congrArg Prod.snd h
      simp at h2
    | ok st2 =>
      have h1 := congrArg Prod.fst h
      have h2 := congrArg Prod.snd h
      simp only [Lib.walkPlugins, hstep] at h1 h2
      have h1' : (Lib.walkPlugins step t st2).1 = t := by
        simpa using h1
      have h2' : (Lib.walkPlugins step t st2).2 = Except.ok st' := by
        simpa using h2
      have hrec : Lib.walkPlugins step t st2 = (t, .ok st') := by
        rw [Prod.ext_iff]
        exact ⟨h1', h2'⟩
      rw [List.cons_append]
      simp only [Lib.walkPlugins, hstep]
      rw [ih st2 hrec]
      simp

/-- Claim C4: when every per-plugin step succeeds, the sequence of plugin
invocations performed by `invoke` (`src/lib.rs` lines 44-61) under `DEL` is
exactly the reverse of the sequence performed under `ADD`, and under every
non-`DEL` operation the plugins are invoked in declared order. -/
theorem c4_delete_walk_reverses_add_walk
    (invoker : CniInvoker) (locator : CniLocator)
    (invocation_arguments : CniInvocationArguments) (plugin_list : CniPluginList)
    (hsucc : ∀ (operation : CniOperation) (plugin : CniPlugin) (st : Lib.InvocationResult),
      (Lib.invoke_plugin invoker locator operation plugin invocation_arguments
        (.pluginList plugin_list) st).isOk = true) :
    (Lib.invokeList invoker locator .Delete invocation_arguments plugin_list).1
      = ((Lib.invokeList invoker locator .Add invocation_arguments plugin_list).1).reverse
    ∧ ∀ operation : CniOperation, operation ≠ .Delete →
        (Lib.invokeList invoker locator operation invocation_arguments plugin_list).1
          = plugin_list.plugins := by
  constructor
  · rw [Lib.invokeList, Lib.invokeList,
      walkPlugins_trace_of_ok _ (hsucc .Delete),
      walkPlugins_trace_of_ok _ (hsucc .Add)]
    rfl
  · intro operation hne
    rw [Lib.invokeList, walkPlugins_trace_of_ok _ (hsucc operation)]
    cases operation with
    | Delete => exact absurd rfl hne
    | Add => rfl
    | Check => rfl
    | Version => rfl
    | Status => rfl
    | GarbageCollect => rfl

/-- An output whose JSON is a bare attachment (`\x7b"cniVersion":"1.0.0"\x7d`):
both classification orders accept it, so a stub invoker returning it always
succeeds. -/
def stubAttachmentOutput : CniOutput :=
  ⟨"\x7b\"cniVersion\":\"1.0.0\"\x7d", some (.obj [("cniVersion", .str "1.0.0")])⟩

/-- A stub invoker that always returns `stubAttachmentOutput`. -/
def stubInvoker : CniInvoker := fun _ _ _ => .ok stubAttachmentOutput

/-- A stub locator that resolves every plugin type. -/
def stubLocator : CniLocator := fun _ => some "/usr/libexec/cni/plugin"

/-- Empty invocation arguments. -/
def argumentsNone : CniInvocationArguments := ⟨none, none, none, none, none, none⟩

/-- A second bare plugin. -/
def pluginP2 : CniPlugin := ⟨"p2", none, none, []⟩

/-- A two-plugin list `p1, p2` named `mynet`. -/
def listTwoPlugins : CniPluginList := ⟨"1.0.0", none, "mynet", false, false, [pluginP1, pluginP2]⟩

/-- Witness for C4 on the two-plugin list with stub invoker and locator. -/
theorem c4_delete_walk_reverses_add_walk_witness :
    (Lib.invokeList stubInvoker stubLocator .Delete argumentsNone listTwoPlugins).1
      = ((Lib.invokeList stubInvoker stubLocator .Add argumentsNone listTwoPlugins).1).reverse
    ∧ ∀ operation : CniOperation, operation ≠ .Delete →
        (Lib.invokeList stubInvoker stubLocator operation argumentsNone listTwoPlugins).1
          = listTwoPlugins.plugins :=
  c4_delete_walk_reverses_add_walk stubInvoker stubLocator argumentsNone listTwoPlugins
    (fun _ _ _ => rfl)

/-- Claim C5: if some per-plugin step fails — after a successful prefix
`done` reaching state `st'`, the step of `failing` returns `.error e` (a
locator miss, invoker failure, plugin-produced error or unrecognizable
output all surface here) — then `invoke` on the list returns exactly that
error: the plugins after `failing` are never attempted, and the accumulated
`InvocationResult` is discarded (the `.error` branch carries no result). -/
theorem c5_step_failure_aborts_walk
    (invoker : CniInvoker) (locator : CniLocator) (operation : CniOperation)
    (invocation_arguments : CniInvocationArguments) (plugin_list : CniPluginList)
    (done rest : List CniPlugin) (failing : CniPlugin)
    (st' : Lib.InvocationResult) (e : CniInvocationError)
    (hiter : Lib.plugin_iter operation plugin_list.plugins = done ++ failing :: rest)
    (hok : Lib.walkPlugins
        (fun plugin st => Lib.invoke_plugin invoker locator operation plugin
          invocation_arguments (.pluginList plugin_list) st)
        done ⟨none, []⟩ = (done, .ok st'))
    (hfail : Lib.invoke_plugin invoker locator operation failing invocation_arguments
        (.pluginList plugin_list) st' = .error e) :
    Lib.invokeList invoker locator operation invocation_arguments plugin_list
      = (done ++ [failing], .error e) := by
  rw [Lib.invokeList, hiter, walkPlugins_append_ok _ done (failing :: rest) _ st' hok]
  simp [Lib.walkPlugins, hfail]

/-- A locator that only knows `p1`. -/
def locatorOnlyP1 : CniLocator := fun plugin_type =>
  if plugin_type = "p1" then some "/usr/libexec/cni/p1" else none

/-- Witness for C5: on the two-plugin list with a locator that cannot find
`p2`, an ADD walk runs `p1`, aborts at `p2` with `PluginNotFoundByLocator`,
and returns no result. -/
theorem c5_step_failure_aborts_walk_witness :
    Lib.invokeList stubInvoker locatorOnlyP1 .Add argumentsNone listTwoPlugins
      = ([pluginP1, pluginP2], .error .PluginNotFoundByLocator) :=
  c5_step_failure_aborts_walk stubInvoker locatorOnlyP1 .Add argumentsNone
    listTwoPlugins [pluginP1] [] pluginP2 ⟨some ⟨"1.0.0", [], [], [], none⟩, []⟩
    .PluginNotFoundByLocator rfl rfl rfl

/-! ## Claim C8 -/

/-- Claim C8: when a plugin's output is classified as a VersionObject, the
`src/runtime.rs` classifier inserts it into `result.version_objects` keyed
by the plugin's type (`HashMap::insert`), and looking the type up afterwards
yields the new object — overwriting any prior entry recorded for the same
type. -/
theorem c8_version_object_inserted_keyed_by_type
    (cni_output : CniOutput) (plugin : CniPlugin)
    (invocation_output : CniInvocationResult) (j : Json)
    (version_object : CniVersionObject)
    (hparsed : cni_output.parsed = some j)
    (hvo : parseCniVersionObject j = some version_object) :
    Runtime.add_to_invocation_output cni_output plugin invocation_output
      = .ok { invocation_output with
              version_objects :=
                hinsert invocation_output.version_objects plugin.plugin_type
                  version_object }
    ∧ hlookup
        (hinsert invocation_output.version_objects plugin.plugin_type version_object)
        plugin.plugin_type
      = some version_object := by
  refine ⟨?_, hlookup_hinsert_self _ _ _⟩
  simp [Runtime.add_to_invocation_output, hparsed, hvo]

/-- Witness for C8: a state already holding a version object for `p1` gets
it overwritten by the newly classified one. -/
theorem c8_version_object_inserted_keyed_by_type_witness :
    Runtime.add_to_invocation_output outputC2 pluginP1
        ⟨none, [("p1", ⟨"0.4.0", ["0.4.0"]⟩)]⟩
      = .ok ⟨none, [("p1", ⟨"1.0.0", ["1.0.0"]⟩)]⟩
    ∧ hlookup [("p1", (⟨"1.0.0", ["1.0.0"]⟩ : CniVersionObject))] "p1"
      = some ⟨"1.0.0", ["1.0.0"]⟩ :=
  c8_version_object_inserted_keyed_by_type outputC2 pluginP1
    ⟨none, [("p1", ⟨"0.4.0", ["0.4.0"]⟩)]⟩
    (.obj [("cniVersion", .str "1.0.0"), ("supportedVersions", .arr [.str "1.0.0"])])
    ⟨"1.0.0", ["1.0.0"]⟩ rfl rfl

/-! ## Claim C9 -/

/-- The three plugin keys routed away from `plugin_options`. -/
def reservedPluginKey (k : String) : Bool :=
  k = "type" || k = "args" || k = "capabilities"

theorem pluginKeyFold_no_reserved_members :
    ∀ (kvs : List (String × Json)) (t : Option String)
      (a c : Option (List (String × Json))) (o : List (String × Json)),
      (∀ kv ∈ o, reservedPluginKey kv.1 = false) →
      ∀ res, pluginKeyFold kvs t a c o = .ok res →
      ∀ kv ∈ res.2.2.2, reservedPluginKey kv.1 = false := by
  intro kvs
  induction kvs with
  | nil =>
    intro t a c o ho res h kv hkv
    simp only [pluginKeyFold] at h
    cases h
    exact ho kv hkv
  | cons hd rest ih =>
    intro t a c o ho res h kv hkv
    obtain ⟨key, value⟩ := hd
    by_cases hty : key = "type"
    · subst hty
      cases value with
      | str s => exact ih (some s) a c o ho res h kv hkv
      | null => exact Except.noConfusion h
      | bool b => exact Except.noConfusion h
      | num n => exact Except.noConfusion h
      | arr elems => exact Except.noConfusion h
      | obj m => exact Except.noConfusion h
    · by_cases har : key = "args"
      · subst har
        cases value with
        | obj m => exact ih t (some m) c o ho res h kv hkv
        | null => exact Except.noConfusion h
        | bool b => exact Except.noConfusion h
        | num n => exact Except.noConfusion h
        | str s => exact Except.noConfusion h
        | arr elems => exact Except.noConfusion h
      · by_cases hca : key = "capabilities"
        · subst hca
          cases value with
          | obj m => exact ih t a (some m) o ho res h kv hkv
          | null => exact Except.noConfusion h
          | bool b => exact Except.noConfusion h
          | num n => exact Except.noConfusion h
          | str s => exact Except.noConfusion h
          | arr elems => exact Except.noConfusion h
        · simp only [pluginKeyFold] at h
          rw [if_neg hty, if_neg har, if_neg hca] at h
          refine ih t a c (minsert key value o) ?_ res h kv hkv
          intro kv' hkv'
          rcases mem_minsert hkv' with rfl | hkv'
          · simp [reservedPluginKey, hty, har, hca]
          · exact ho kv' hkv'

theorem emitOptions_ok_of_no_reserved :
    ∀ (l m : List (String × Json)),
      (∀ kv ∈ l, reservedPluginKey kv.1 = false) →
      emitOptions l m = .ok (l.foldl (fun acc kv => minsert kv.1 kv.2 acc) m) := by
  intro l
  induction l with
  | nil => intro m _; rfl
  | cons hd rest ih =>
    intro m h
    obtain ⟨key, value⟩ := hd
    have hhd := h (key, value) (List.mem_cons_self _ _)
    have hcond : ¬(key = "args" ∨ key = "capabilities" ∨ key = "type") := by
      intro hc
      have hres : reservedPluginKey key = true := by
        rcases hc with h1 | h1 | h1 <;> simp [reservedPluginKey, h1]
      rw [hhd] at hres
      cases hres
    simp only [emitOptions, List.foldl_cons]
    rw [if_neg hcond]
    exact ih (minsert key value m) (fun kv hkv => h kv (List.mem_cons_of_mem _ hkv))

/-- Claim C9: a `CniPlugin` obtained from `CniPlugin::from_json_value` has
none of `type`, `args`, `capabilities` among its `plugin_options`, and
emitting it through `CniPlugin::to_json_value` succeeds — in particular it
never raises `OverlappingKey`. -/
theorem c9_parsed_plugin_options_exclude_reserved_keys
    (json_value : Json) (p : CniPlugin)
    (h : CniPlugin.from_json_value json_value = .ok p) :
    mlookup p.plugin_options "type" = none
    ∧ mlookup p.plugin_options "args" = none
    ∧ mlookup p.plugin_options "capabilities" = none
    ∧ ∃ out, CniPlugin.to_json_value p = .ok out := by
  cases json_value with
  | obj kvs =>
    simp only [CniPlugin.from_json_value] at h
    cases hfold : pluginKeyFold kvs none none none [] with
    | error e =>
      rw [hfold] at h
      exact Except.noConfusion h
    | ok res =>
      obtain ⟨t, a, c, o⟩ := res
      rw [hfold] at h
      cases t with
      | none => exact Except.noConfusion h
      | some plugin_type =>
        have hp : p = ⟨plugin_type, a, c, o⟩ := (Except.ok.inj h).symm
        subst hp
        have hmem : ∀ kv ∈ o, reservedPluginKey kv.1 = false :=
          pluginKeyFold_no_reserved_members kvs none none none []
            (fun kv hkv => absurd hkv (List.not_mem_nil kv))
            (some plugin_type, a, c, o) hfold
        have hnone : ∀ key : String, reservedPluginKey key = true →
            mlookup o key = none := by
          intro key hkey
          apply mlookup_eq_none_of_forall_ne
          intro kv hkv he
          have hf := hmem kv hkv
          rw [he] at hf
          rw [hf] at hkey
          cases hkey
        refine ⟨hnone "type" (by decide), hnone "args" (by decide),
          hnone "capabilities" (by decide), ?_⟩
        simp only [CniPlugin.to_json_value]
        rw [emitOptions_ok_of_no_reserved o _ hmem]
        exact ⟨_, rfl⟩
  | null => exact Except.noConfusion h
  | bool b => exact Except.noConfusion h
  | num n => exact Except.noConfusion h
  | str s => exact Except.noConfusion h
  | arr elems => exact Except.noConfusion h

/-- Witness for C9 at a concrete plugin document with an `ipam` option. -/
theorem c9_parsed_plugin_options_exclude_reserved_keys_witness :
    mlookup (CniPlugin.mk "bridge" none none [("ipam", .obj [])]).plugin_options
        "type" = none
    ∧ mlookup (CniPlugin.mk "bridge" none none [("ipam", .obj [])]).plugin_options
        "args" = none
    ∧ mlookup (CniPlugin.mk "bridge" none none [("ipam", .obj [])]).plugin_options
        "capabilities" = none
    ∧ ∃ out, CniPlugin.to_json_value ⟨"bridge", none, none, [("ipam", .obj [])]⟩
        = .ok out :=
  c9_parsed_plugin_options_exclude_reserved_keys
    (.obj [("ipam", .obj []), ("type", .str "bridge")])
    ⟨"bridge", none, none, [("ipam", .obj [])]⟩ rfl

/-! ## Claim C10 -/

/-- The claim C10 failing input:
`\x7b"cniVersion":"1.0.0","cniVersions":[5]\x7d` — `cniVersions` present as
an array containing a non-string element. -/
def inputC10 : Json :=
  .obj [("cniVersion", .str "1.0.0"), ("cniVersions", .arr [.num 5])]

/-- Claim C10: on a document whose `cniVersions` array contains a non-string
element, the `src/plugins.rs` parser is total and returns `KeyOfWrongType`,
but the earlier `src/data.rs` iteration panics on the very same input via
`.expect("CNI version inside list was not a string")`. -/
theorem c10_nonstring_version_element_panics_in_data_rs :
    CniPluginList.from_json_value inputC10
      = .error CniDeserializationError.KeyOfWrongType
    ∧ DataPluginList.from_json inputC10
      = .panicked "CNI version inside list was not a string" := by
  exact ⟨rfl, rfl⟩

/-! ## Claim C6 -/

/-- The C6 counterexample document: a valid plugin-list JSON with neither
`disableCheck` nor `disableGC`. -/
def listDocC6 : Json :=
  .obj [("cniVersion", .str "1.0.0"), ("name", .str "a"),
        ("plugins", .arr [.obj [("type", .str "t")]])]

/-- Claim C6, counterexample: parsing `listDocC6` succeeds, but emitting the
parsed list materializes `disableCheck: false` and `disableGC: false`, keys
the input did not contain — so `emit(parse(J))` differs from `J` even modulo
key ordering and whitespace (both sides are in canonical sorted-key form, so
the comparison is plain equality of values). -/
theorem c6_counterexample_round_trip_not_identity :
    CniPluginList.from_json_value listDocC6
      = .ok ⟨"1.0.0", none, "a", false, false, [⟨"t", none, none, []⟩]⟩
    ∧ CniPluginList.to_json_value ⟨"1.0.0", none, "a", false, false, [⟨"t", none, none, []⟩]⟩
      = .ok (.obj [("cniVersion", .str "1.0.0"), ("disableCheck", .bool false),
                   ("disableGC", .bool false), ("name", .str "a"),
                   ("plugins", .arr [.obj [("type", .str "t")]])])
    ∧ (Json.obj [("cniVersion", .str "1.0.0"), ("disableCheck", .bool false),
                 ("disableGC", .bool false), ("name", .str "a"),
                 ("plugins", .arr [.obj [("type", .str "t")]])])
      ≠ listDocC6 := by
  refine ⟨rfl, rfl, ?_⟩
  decide

/-! ### Machinery for the amended round-trip law -/

/-- Pairwise-distinct keys. -/
def keysNodup (l : List (String × Json)) : Prop :=
  l.Pairwise (fun a b => a.1 ≠ b.1)

theorem sortedKeys_keysNodup {l : List (String × Json)} (h : SortedKeys l) :
    keysNodup l := by
  refine h.imp ?_
  intro a b hab he
  rw [he, strLt_irrefl] at hab
  cases hab

theorem mlookup_some_mem : ∀ {l : List (String × Json)} {k : String} {v : Json},
    mlookup l k = some v → (k, v) ∈ l := by
  intro l
  induction l with
  | nil => intro k v h; cases h
  | cons hd t ih =>
    intro k v h
    obtain ⟨k', v'⟩ := hd
    by_cases hk : k = k'
    · subst hk
      rw [mlookup_cons, if_pos rfl] at h
      cases h
      exact List.mem_cons_self _ _
    · rw [mlookup_cons, if_neg hk] at h
      exact List.mem_cons_of_mem _ (ih h)

theorem mlookup_of_mem_nodup : ∀ {l : List (String × Json)},
    keysNodup l → ∀ {k : String} {v : Json}, (k, v) ∈ l → mlookup l k = some v := by
  intro l
  induction l with
  | nil => intro _ k v hm; cases hm
  | cons hd t ih =>
    intro hnd k v hm
    obtain ⟨k', v'⟩ := hd
    rw [keysNodup, List.pairwise_cons] at hnd
    obtain ⟨hne, hnd'⟩ := hnd
    rcases List.mem_cons.mp hm with heq | hm'
    · cases heq
      rw [mlookup_cons, if_pos rfl]
    · have hkne : k ≠ k' := by
        intro he
        subst he
        exact hne (k, v) hm' rfl
      rw [mlookup_cons, if_neg hkne]
      exact ih hnd' hm'

/-- Folding `BTreeMap::insert` over a binding list (the shape of every emit
loop in `src/plugins.rs`). -/
def minsertAll (l m : List (String × Json)) : List (String × Json) :=
  l.foldl (fun acc kv => minsert kv.1 kv.2 acc) m

theorem sortedKeys_minsertAll : ∀ (l m : List (String × Json)),
    SortedKeys m → SortedKeys (minsertAll l m) := by
  intro l
  induction l with
  | nil => intro m hm; exact hm
  | cons hd t ih =>
    intro m hm
    exact ih (minsert hd.1 hd.2 m) (sortedKeys_minsert hd.1 hd.2 hm)

theorem mlookup_minsertAll : ∀ (l : List (String × Json)), keysNodup l →
    ∀ (m : List (String × Json)) (k : String),
    mlookup (minsertAll l m) k = (mlookup l k).or (mlookup m k) := by
  intro l
  induction l with
  | nil => intro _ m k; rfl
  | cons hd t ih =>
    intro hnd m k
    obtain ⟨k1, v1⟩ := hd
    rw [keysNodup, List.pairwise_cons] at hnd
    obtain ⟨hne, hnd'⟩ := hnd
    have step : minsertAll ((k1, v1) :: t) m = minsertAll t (minsert k1 v1 m) := rfl
    rw [step, ih hnd' (minsert k1 v1 m) k]
    by_cases hk : k = k1
    · subst hk
      have htn : mlookup t k = none :=
        mlookup_eq_none_of_forall_ne (fun a ha he => hne a ha he.symm)
      rw [htn, mlookup_minsert_self, mlookup_cons, if_pos rfl]
      rfl
    · rw [mlookup_minsert_ne k k1 hk, mlookup_cons, if_neg hk]

theorem not_type_of_not_reserved {k : String} (h : reservedPluginKey k = false) :
    k ≠ "type" := by
  intro he
  subst he
  exact Bool.noConfusion h

theorem not_args_of_not_reserved {k : String} (h : reservedPluginKey k = false) :
    k ≠ "args" := by
  intro he
  subst he
  exact Bool.noConfusion h

theorem not_capabilities_of_not_reserved {k : String} (h : reservedPluginKey k = false) :
    k ≠ "capabilities" := by
  intro he
  subst he
  exact Bool.noConfusion h

/-- Sanity conditions on a plugin object's entries: the three special keys,
when present, carry the JSON shapes `CniPlugin::from_json_value` accepts. -/
def PluginEntriesOk (kvs : List (String × Json)) : Prop :=
  ∀ kv ∈ kvs,
    (kv.1 = "type" → ∃ s, kv.2 = Json.str s)
    ∧ (kv.1 = "args" → ∃ m, kv.2 = Json.obj m)
    ∧ (kv.1 = "capabilities" → ∃ m, kv.2 = Json.obj m)

/-- Full characterization of the key-routing loop of
`CniPlugin::from_json_value` on a sorted, well-shaped object: it succeeds,
the typed slots take the looked-up special values, and `plugin_options` is
exactly the non-special remainder. -/
theorem pluginKeyFold_spec :
    ∀ (kvs : List (String × Json)) (t : Option String)
      (a c : Option (List (String × Json))) (o : List (String × Json)),
      SortedKeys kvs → PluginEntriesOk kvs → SortedKeys o →
      (∀ ko ∈ o, ∀ kn ∈ kvs, strLt ko.1 kn.1 = true) →
      ∃ o',
        pluginKeyFold kvs t a c o = .ok
          ((match mlookup kvs "type" with
            | some (.str s) => some s
            | _ => t),
           (match mlookup kvs "args" with
            | some (.obj m) => some m
            | _ => a),
           (match mlookup kvs "capabilities" with
            | some (.obj m) => some m
            | _ => c), o')
        ∧ SortedKeys o'
        ∧ ∀ k, mlookup o' k =
            if reservedPluginKey k then mlookup o k
            else (mlookup kvs k).or (mlookup o k) := by
  intro kvs
  induction kvs with
  | nil =>
    intro t a c o _ _ hso _
    refine ⟨o, rfl, hso, ?_⟩
    intro k
    by_cases hres : reservedPluginKey k = true <;> simp [hres, mlookup]
  | cons hd rest ih =>
    intro t a c o hsort hents hso hbound
    obtain ⟨key, value⟩ := hd
    rw [SortedKeys, List.pairwise_cons] at hsort
    obtain ⟨hall, hrest⟩ := hsort
    have hentsRest : PluginEntriesOk rest :=
      fun kv hkv => hents kv (List.mem_cons_of_mem _ hkv)
    have hkeyNotInRest : ∀ k2 : String, strLt key k2 = false → mlookup rest k2 = none := by
      intro k2 hlt
      apply mlookup_eq_none_of_forall_ne
      intro b hb he
      have := hall b hb
      rw [he, hlt] at this
      cases this
    by_cases hty : key = "type"
    · subst hty
      obtain ⟨s, rfl⟩ := (hents ("type", value) (List.mem_cons_self _ _)).1 rfl
      obtain ⟨o', hfold, hsorto, hchar⟩ :=
        ih (some s) a c o hrest hentsRest hso
          (fun ko hko kn hkn => hbound ko hko kn (List.mem_cons_of_mem _ hkn))
      have hrt : mlookup rest "type" = none :=
        hkeyNotInRest "type" (strLt_irrefl "type")
      refine ⟨o', ?_, hsorto, ?_⟩
      · refine hfold.trans ?_
        rw [hrt] at hfold ⊢
        have e1 : (match mlookup (("type", Json.str s) :: rest) "type" with
            | some (.str s') => some s'
            | _ => t) = some s := by
          simp [mlookup]
        have e2 : (match mlookup (("type", Json.str s) :: rest) "args" with
            | some (.obj m) => some m
            | _ => a) = (match mlookup rest "args" with
            | some (.obj m) => some m
            | _ => a) := by
          rw [mlookup_cons, if_neg (by decide)]
        have e3 : (match mlookup (("type", Json.str s) :: rest) "capabilities" with
            | some (.obj m) => some m
            | _ => c) = (match mlookup rest "capabilities" with
            | some (.obj m) => some m
            | _ => c) := by
          rw [mlookup_cons, if_neg (by decide)]
        rw [e1, e2, e3]
      · intro k
        rw [hchar k]
        by_cases hres : reservedPluginKey k = true
        · rw [if_pos hres, if_pos hres]
        · have hres' : reservedPluginKey k = false := Bool.eq_false_iff.mpr hres
          rw [if_neg hres, if_neg hres, mlookup_cons,
            if_neg (not_type_of_not_reserved hres')]
    · by_cases har : key = "args"
      · subst har
        obtain ⟨m, rfl⟩ := (hents ("args", value) (List.mem_cons_self _ _)).2.1 rfl
        obtain ⟨o', hfold, hsorto, hchar⟩ :=
          ih t (some m) c o hrest hentsRest hso
            (fun ko hko kn hkn => hbound ko hko kn (List.mem_cons_of_mem _ hkn))
        have hra : mlookup rest "args" = none :=
          hkeyNotInRest "args" (strLt_irrefl "args")
        refine ⟨o', ?_, hsorto, ?_⟩
        · refine hfold.trans ?_
          rw [hra] at hfold ⊢
          have e1 : (match mlookup (("args", Json.obj m) :: rest) "type" with
              | some (.str s') => some s'
              | _ => t) = (match mlookup rest "type" with
              | some (.str s') => some s'
              | _ => t) := by
            rw [mlookup_cons, if_neg (by decide)]
          have e2 : (match mlookup (("args", Json.obj m) :: rest) "args" with
              | some (.obj m') => some m'
              | _ => a) = some m := by
            simp [mlookup]
          have e3 : (match mlookup (("args", Json.obj m) :: rest) "capabilities" with
              | some (.obj m') => some m'
              | _ => c) = (match mlookup rest "capabilities" with
              | some (.obj m') => some m'
              | _ => c) := by
            rw [mlookup_cons, if_neg (by decide)]
          rw [e1, e2, e3]
        · intro k
          rw [hchar k]
          by_cases hres : reservedPluginKey k = true
          · rw [if_pos hres, if_pos hres]
          · have hres' : reservedPluginKey k = false := Bool.eq_false_iff.mpr hres
            rw [if_neg hres, if_neg hres, mlookup_cons,
              if_neg (not_args_of_not_reserved hres')]
      · by_cases hca : key = "capabilities"
        · subst hca
          obtain ⟨m, rfl⟩ :=
            (hents ("capabilities", value) (List.mem_cons_self _ _)).2.2 rfl
          obtain ⟨o', hfold, hsorto, hchar⟩ :=
            ih t a (some m) o hrest hentsRest hso
              (fun ko hko kn hkn => hbound ko hko kn (List.mem_cons_of_mem _ hkn))
          have hrc : mlookup rest "capabilities" = none :=
            hkeyNotInRest "capabilities" (strLt_irrefl "capabilities")
          refine ⟨o', ?_, hsorto, ?_⟩
          · refine hfold.trans ?_
            rw [hrc] at hfold ⊢
            have e1 : (match mlookup (("capabilities", Json.obj m) :: rest) "type" with
                | some (.str s') => some s'
                | _ => t) = (match mlookup rest "type" with
                | some (.str s') => some s'
                | _ => t) := by
              rw [mlookup_cons, if_neg (by decide)]
            have e2 : (match mlookup (("capabilities", Json.obj m) :: rest) "args" with
                | some (.obj m') => some m'
                | _ => a) = (match mlookup rest "args" with
                | some (.obj m') => some m'
                | _ => a) := by
              rw [mlookup_cons, if_neg (by decide)]
            have e3 : (match mlookup (("capabilities", Json.obj m) :: rest)
                  "capabilities" with
                | some (.obj m') => some m'
                | _ => c) = some m := by
              simp [mlookup]
            rw [e1, e2, e3]
          · intro k
            rw [hchar k]
            by_cases hres : reservedPluginKey k = true
            · rw [if_pos hres, if_pos hres]
            · have hres' : reservedPluginKey k = false := Bool.eq_false_iff.mpr hres
              rw [if_neg hres, if_neg hres, mlookup_cons,
                if_neg (not_capabilities_of_not_reserved hres')]
        · -- a plain option key, inserted into the accumulator
          have hselfres : reservedPluginKey key = false := by
            simp [reservedPluginKey, hty, har, hca]
          obtain ⟨o', hfold, hsorto, hchar⟩ :=
            ih t a c (minsert key value o) hrest hentsRest
              (sortedKeys_minsert key value hso)
              (by
                intro ko hko kn hkn
                rcases mem_minsert hko with rfl | hko'
                · exact hall kn hkn
                · exact hbound ko hko' kn (List.mem_cons_of_mem _ hkn))
          refine ⟨o', ?_, hsorto, ?_⟩
          · have hunfold : pluginKeyFold ((key, value) :: rest) t a c o
                = pluginKeyFold rest t a c (minsert key value o) := by
              simp only [pluginKeyFold]
              rw [if_neg hty, if_neg har, if_neg hca]
            rw [hunfold]
            refine hfold.trans ?_
            have e1 : (match mlookup ((key, value) :: rest) "type" with
                | some (.str s') => some s'
                | _ => t) = (match mlookup rest "type" with
                | some (.str s') => some s'
                | _ => t) := by
              rw [mlookup_cons, if_neg (fun he => hty he.symm)]
            have e2 : (match mlookup ((key, value) :: rest) "args" with
                | some (.obj m') => some m'
                | _ => a) = (match mlookup rest "args" with
                | some (.obj m') => some m'
                | _ => a) := by
              rw [mlookup_cons, if_neg (fun he => har he.symm)]
            have e3 : (match mlookup ((key, value) :: rest) "capabilities" with
                | some (.obj m') => some m'
                | _ => c) = (match mlookup rest "capabilities" with
                | some (.obj m') => some m'
                | _ => c) := by
              rw [mlookup_cons, if_neg (fun he => hca he.symm)]
            rw [e1, e2, e3]
          · intro k
            rw [hchar k]
            by_cases hres : reservedPluginKey k = true
            · have hkne : k ≠ key := by
                intro he
                subst he
                rw [hselfres] at hres
                cases hres
              rw [if_pos hres, if_pos hres, mlookup_minsert_ne k key hkne]
            · have hres' : reservedPluginKey k = false := Bool.eq_false_iff.mpr hres
              rw [if_neg hres, if_neg hres]
              by_cases hk : k = key
              · subst hk
                rw [hkeyNotInRest k (strLt_irrefl k), mlookup_minsert_self,
                  mlookup_cons, if_pos rfl]
                rfl
              · rw [mlookup_minsert_ne k key hk, mlookup_cons, if_neg hk]

/-- Emit-side characterization of `CniPlugin::to_json_value` for a plugin
whose options are sorted and free of reserved keys: it succeeds and the
emitted object's lookups are the three typed slots plus the options. -/
theorem CniPlugin_to_json_value_lookup (p : CniPlugin)
    (ho : ∀ kv ∈ p.plugin_options, reservedPluginKey kv.1 = false)
    (hsort : SortedKeys p.plugin_options) :
    ∃ F, CniPlugin.to_json_value p = .ok (.obj F)
    ∧ SortedKeys F
    ∧ ∀ k, mlookup F k =
        if k = "type" then some (.str p.plugin_type)
        else if k = "args" then p.args.map Json.obj
        else if k = "capabilities" then p.capabilities.map Json.obj
        else mlookup p.plugin_options k := by
  obtain ⟨ty, a, c, o⟩ := p
  simp only at ho hsort
  have hbase : ∀ (m2 : List (String × Json)),
      SortedKeys m2 →
      ∃ F, (do
          let map3 ← emitOptions o m2
          Except.ok (Json.obj map3) : Except CniSerializationError Json) = .ok (.obj F)
        ∧ SortedKeys F
        ∧ ∀ k, mlookup F k = (mlookup o k).or (mlookup m2 k) := by
    intro m2 hm2
    rw [emitOptions_ok_of_no_reserved o m2 ho]
    refine ⟨minsertAll o m2, rfl, sortedKeys_minsertAll o m2 hm2, ?_⟩
    intro k
    exact mlookup_minsertAll o (sortedKeys_keysNodup hsort) m2 k
  have hores : ∀ k, reservedPluginKey k = true → mlookup o k = none := by
    intro k hk
    apply mlookup_eq_none_of_forall_ne
    intro kv hkv he
    have := ho kv hkv
    rw [he, hk] at this
    cases this
  cases a with
  | none =>
    cases c with
    | none =>
      obtain ⟨F, hF, hsF, hlF⟩ := hbase (minsert "type" (.str ty) [])
        (sortedKeys_minsert _ _ (List.Pairwise.nil))
      refine ⟨F, hF, hsF, ?_⟩
      intro k
      rw [hlF k]
      by_cases h1 : k = "type"
      · subst h1
        rw [hores "type" (by decide), mlookup_minsert_self, if_pos rfl]
        rfl
      · rw [if_neg h1, mlookup_minsert_ne k "type" h1, mlookup_nil]
        by_cases h2 : k = "args"
        · subst h2
          rw [if_pos rfl, hores "args" (by decide)]
          rfl
        · rw [if_neg h2]
          by_cases h3 : k = "capabilities"
          · subst h3
            rw [if_pos rfl, hores "capabilities" (by decide)]
            rfl
          · rw [if_neg h3]
            cases mlookup o k <;> rfl
    | some cm =>
      obtain ⟨F, hF, hsF, hlF⟩ := hbase
        (minsert "capabilities" (.obj cm) (minsert "type" (.str ty) []))
        (sortedKeys_minsert _ _ (sortedKeys_minsert _ _ (List.Pairwise.nil)))
      refine ⟨F, hF, hsF, ?_⟩
      intro k
      rw [hlF k]
      by_cases h1 : k = "type"
      · subst h1
        rw [hores "type" (by decide), mlookup_minsert_ne "type" "capabilities" (by decide),
          mlookup_minsert_self, if_pos rfl]
        rfl
      · rw [if_neg h1]
        by_cases h2 : k = "args"
        · subst h2
          rw [if_pos rfl, hores "args" (by decide),
            mlookup_minsert_ne "args" "capabilities" (by decide),
            mlookup_minsert_ne "args" "type" (by decide), mlookup_nil]
          rfl
        · rw [if_neg h2]
          by_cases h3 : k = "capabilities"
          · subst h3
            rw [if_pos rfl, hores "capabilities" (by decide), mlookup_minsert_self]
            rfl
          · rw [if_neg h3, mlookup_minsert_ne k "capabilities" h3,
              mlookup_minsert_ne k "type" h1, mlookup_nil]
            cases mlookup o k <;> rfl
  | some am =>
    cases c with
    | none =>
      obtain ⟨F, hF, hsF, hlF⟩ := hbase
        (minsert "args" (.obj am) (minsert "type" (.str ty) []))
        (sortedKeys_minsert _ _ (sortedKeys_minsert _ _ (List.Pairwise.nil)))
      refine ⟨F, hF, hsF, ?_⟩
      intro k
      rw [hlF k]
      by_cases h1 : k = "type"
      · subst h1
        rw [hores "type" (by decide), mlookup_minsert_ne "type" "args" (by decide),
          mlookup_minsert_self, if_pos rfl]
        rfl
      · rw [if_neg h1]
        by_cases h2 : k = "args"
        · subst h2
          rw [if_pos rfl, hores "args" (by decide), mlookup_minsert_self]
          rfl
        · rw [if_neg h2]
          by_cases h3 : k = "capabilities"
          · subst h3
            rw [if_pos rfl, hores "capabilities" (by decide),
              mlookup_minsert_ne "capabilities" "args" (by decide),
              mlookup_minsert_ne "capabilities" "type" (by decide), mlookup_nil]
            rfl
          · rw [if_neg h3, mlookup_minsert_ne k "args" h2,
              mlookup_minsert_ne k "type" h1, mlookup_nil]
            cases mlookup o k <;> rfl
    | some cm =>
      obtain ⟨F, hF, hsF, hlF⟩ := hbase
        (minsert "capabilities" (.obj cm)
          (minsert "args" (.obj am) (minsert "type" (.str ty) [])))
        (sortedKeys_minsert _ _ (sortedKeys_minsert _ _
          (sortedKeys_minsert _ _ (List.Pairwise.nil))))
      refine ⟨F, hF, hsF, ?_⟩
      intro k
      rw [hlF k]
      by_cases h1 : k = "type"
      · subst h1
        rw [hores "type" (by decide), mlookup_minsert_ne "type" "capabilities" (by decide),
          mlookup_minsert_ne "type" "args" (by decide), mlookup_minsert_self,
          if_pos rfl]
        rfl
      · rw [if_neg h1]
        by_cases h2 : k = "args"
        · subst h2
          rw [if_pos rfl, hores "args" (by decide),
            mlookup_minsert_ne "args" "capabilities" (by decide), mlookup_minsert_self]
          rfl
        · rw [if_neg h2]
          by_cases h3 : k = "capabilities"
          · subst h3
            rw [if_pos rfl, hores "capabilities" (by decide), mlookup_minsert_self]
            rfl
          · rw [if_neg h3, mlookup_minsert_ne k "capabilities" h3,
              mlookup_minsert_ne k "args" h2, mlookup_minsert_ne k "type" h1,
              mlookup_nil]
            cases mlookup o k <;> rfl

/-- Round trip for a single plugin object in canonical form: parsing
succeeds and emitting the parsed plugin reproduces the object exactly. -/
theorem CniPlugin_round_trip (kvs : List (String × Json))
    (hs : SortedKeys kvs) (he : PluginEntriesOk kvs)
    (ht : ∃ s, mlookup kvs "type" = some (.str s)) :
    ∃ p, CniPlugin.from_json_value (.obj kvs) = .ok p
       ∧ CniPlugin.to_json_value p = .ok (.obj kvs) := by
  obtain ⟨s, hty⟩ := ht
  obtain ⟨o', hfold, hsorto, hchar⟩ :=
    pluginKeyFold_spec kvs none none none [] hs he List.Pairwise.nil
      (fun ko hko => absurd hko (List.not_mem_nil ko))
  rw [hty] at hfold
  set aVal := (match mlookup kvs "args" with
    | some (.obj m) => some m
    | _ => (none : Option (List (String × Json)))) with haVal
  set cVal := (match mlookup kvs "capabilities" with
    | some (.obj m) => some m
    | _ => (none : Option (List (String × Json)))) with hcVal
  have hp : CniPlugin.from_json_value (.obj kvs) = .ok ⟨s, aVal, cVal, o'⟩ := by
    simp only [CniPlugin.from_json_value]
    rw [hfold]
    rfl
  refine ⟨⟨s, aVal, cVal, o'⟩, hp, ?_⟩
  have honores : ∀ kv ∈ o', reservedPluginKey kv.1 = false := by
    intro kv hkv
    by_cases hres : reservedPluginKey kv.1 = true
    · have hl := mlookup_of_mem_nodup (sortedKeys_keysNodup hsorto) hkv
      rw [hchar kv.1, if_pos hres, mlookup_nil] at hl
      cases hl
    · exact Bool.eq_false_iff.mpr hres
  obtain ⟨F, hF, hsF, hlF⟩ :=
    CniPlugin_to_json_value_lookup ⟨s, aVal, cVal, o'⟩ honores hsorto
  rw [hF]
  congr 1
  congr 1
  apply sorted_ext hsF hs
  intro k
  rw [hlF k]
  by_cases h1 : k = "type"
  · subst h1
    rw [if_pos rfl, hty]
  · rw [if_neg h1]
    by_cases h2 : k = "args"
    · subst h2
      rw [if_pos rfl]
      cases hA : mlookup kvs "args" with
      | none => rw [haVal, hA]; rfl
      | some v =>
        obtain ⟨m, rfl⟩ := (he _ (mlookup_some_mem hA)).2.1 rfl
        rw [haVal, hA]
        rfl
    · rw [if_neg h2]
      by_cases h3 : k = "capabilities"
      · subst h3
        rw [if_pos rfl]
        cases hC : mlookup kvs "capabilities" with
        | none => rw [hcVal, hC]; rfl
        | some v =>
          obtain ⟨m, rfl⟩ := (he _ (mlookup_some_mem hC)).2.2 rfl
          rw [hcVal, hC]
          rfl
      · rw [if_neg h3]
        have hres : reservedPluginKey k = false := by
          simp [reservedPluginKey, h1, h2, h3]
        rw [hchar k, if_neg (by rw [hres]; exact Bool.noConfusion), mlookup_nil]
        cases mlookup kvs k <;> rfl

@[simp] theorem exceptBind_ok {ε α β : Type} (a : α) (f : α → Except ε β) :
    (Except.ok a >>= f : Except ε β) = f a := rfl

@[simp] theorem exceptBind_err {ε α β : Type} (e : ε) (f : α → Except ε β) :
    (Except.error e >>= f : Except ε β) = Except.error e := rfl

/-- The `cniVersions` element loop succeeds on canonical version strings and
returns exactly them. -/
theorem parseVersionElems_canonical : ∀ (elems : List Json),
    (∀ e ∈ elems, ∃ s, e = Json.str s ∧ CniVersion.parse s = .ok s) →
    ∃ ss, parseVersionElems elems = .ok ss ∧ elems = ss.map Json.str := by
  intro elems
  induction elems with
  | nil => intro _; exact ⟨[], rfl, rfl⟩
  | cons e rest ih =>
    intro h
    obtain ⟨s, rfl, hps⟩ := h e (List.mem_cons_self _ _)
    obtain ⟨ss, hss, hmap⟩ := ih (fun e' he' => h e' (List.mem_cons_of_mem _ he'))
    refine ⟨s :: ss, ?_, by rw [List.map_cons, ← hmap]⟩
    simp only [parseVersionElems, hps, hss, exceptBind_ok]

/-- The `plugins` element loop on canonical plugin objects: parsing succeeds
and emitting the parsed plugins reproduces the elements. -/
theorem parsePluginElems_round_trip : ∀ (elems : List Json),
    (∀ e ∈ elems, ∃ pkvs, e = Json.obj pkvs ∧ SortedKeys pkvs ∧ PluginEntriesOk pkvs
        ∧ ∃ s, mlookup pkvs "type" = some (.str s)) →
    ∃ ps, parsePluginElems elems = .ok ps ∧ emitPluginElems ps = .ok elems := by
  intro elems
  induction elems with
  | nil => intro _; exact ⟨[], rfl, rfl⟩
  | cons e rest ih =>
    intro h
    obtain ⟨pkvs, rfl, hsp, hep, htp⟩ := h e (List.mem_cons_self _ _)
    obtain ⟨p, hparse, hemit⟩ := CniPlugin_round_trip pkvs hsp hep htp
    obtain ⟨ps, hps, hemits⟩ := ih (fun e' he' => h e' (List.mem_cons_of_mem _ he'))
    refine ⟨p :: ps, ?_, ?_⟩
    · simp only [parsePluginElems, hparse, hps, exceptBind_ok]
    · simp only [emitPluginElems, hemit, hemits, exceptBind_ok]

/-- The canonical-form hypotheses under which the round-trip law holds, as
forced by the counterexample: the document is a sorted serde value; its
top-level keys are only the six recognized ones (parse drops all others);
`disableCheck` and `disableGC` are explicitly present (parse defaults them
and emit always writes them); version strings are in canonical
`MAJOR.MINOR.PATCH` form (parse re-formats them); and the name and plugin
objects are what a successful parse requires. -/
structure PluginListDocWF (kvs : List (String × Json)) : Prop where
  sorted : SortedKeys kvs
  keys_known : ∀ kv ∈ kvs, kv.1 = "cniVersion" ∨ kv.1 = "cniVersions"
    ∨ kv.1 = "name" ∨ kv.1 = "disableCheck" ∨ kv.1 = "disableGC" ∨ kv.1 = "plugins"
  version_ok : ∃ s, mlookup kvs "cniVersion" = some (.str s)
    ∧ CniVersion.parse s = .ok s
  versions_ok : mlookup kvs "cniVersions" = none
    ∨ ∃ elems, mlookup kvs "cniVersions" = some (.arr elems) ∧ elems ≠ []
        ∧ ∀ e ∈ elems, ∃ s, e = Json.str s ∧ CniVersion.parse s = .ok s
  name_ok : ∃ s, mlookup kvs "name" = some (.str s) ∧ CniName.new s = .ok s
  disable_check_ok : ∃ b, mlookup kvs "disableCheck" = some (.bool b)
  disable_gc_ok : ∃ b, mlookup kvs "disableGC" = some (.bool b)
  plugins_ok : ∃ elems, mlookup kvs "plugins" = some (.arr elems) ∧ elems ≠ []
      ∧ ∀ e ∈ elems, ∃ pkvs, e = Json.obj pkvs ∧ SortedKeys pkvs
          ∧ PluginEntriesOk pkvs ∧ ∃ s, mlookup pkvs "type" = some (.str s)

/-- Claim C6, amended: for a plugin-list document `J` in canonical serde form
(sorted object keys, so equality of values is document equality modulo key
ordering and whitespace) whose top-level keys are exactly the recognized
ones with `disableCheck`/`disableGC` explicitly present and canonical
version strings, `emit(parse(J)) = J`. Without those extra conditions the
law fails (see the counterexample): unknown top-level keys are dropped,
omitted `disableCheck`/`disableGC` are materialized as `false`, and
non-canonical version strings are re-formatted. -/
theorem c6_amended_round_trip_on_canonical_docs (kvs : List (String × Json))
    (h : PluginListDocWF kvs) :
    ∃ l, CniPluginList.from_json_value (.obj kvs) = .ok l
       ∧ CniPluginList.to_json_value l = .ok (.obj kvs) := by
  obtain ⟨s, hcv, hcvparse⟩ := h.version_ok
  obtain ⟨n, hn, hnok⟩ := h.name_ok
  obtain ⟨bc, hbc⟩ := h.disable_check_ok
  obtain ⟨bg, hbg⟩ := h.disable_gc_ok
  obtain ⟨pe, hpe, hpene, hpewf⟩ := h.plugins_ok
  obtain ⟨ps, hps, hemit⟩ := parsePluginElems_round_trip pe hpewf
  have hpeE : pe.isEmpty = false := by
    cases pe with
    | nil => exact absurd rfl hpene
    | cons _ _ => rfl
  have e2 : mlookup (mremove "cniVersion" kvs) "cniVersions"
      = mlookup kvs "cniVersions" :=
    mlookup_mremove_ne _ _ (by decide) _
  have e3 : mlookup (mremove "cniVersions" (mremove "cniVersion" kvs)) "name"
      = mlookup kvs "name" := by
    rw [mlookup_mremove_ne _ _ (by decide), mlookup_mremove_ne _ _ (by decide)]
  have e4 : mlookup (mremove "name" (mremove "cniVersions" (mremove "cniVersion" kvs)))
      "disableCheck" = mlookup kvs "disableCheck" := by
    rw [mlookup_mremove_ne _ _ (by decide), mlookup_mremove_ne _ _ (by decide),
      mlookup_mremove_ne _ _ (by decide)]
  have e5 : mlookup (mremove "disableCheck" (mremove "name" (mremove "cniVersions"
      (mremove "cniVersion" kvs)))) "disableGC" = mlookup kvs "disableGC" := by
    rw [mlookup_mremove_ne _ _ (by decide), mlookup_mremove_ne _ _ (by decide),
      mlookup_mremove_ne _ _ (by decide), mlookup_mremove_ne _ _ (by decide)]
  have e6 : mlookup (mremove "disableGC" (mremove "disableCheck" (mremove "name"
      (mremove "cniVersions" (mremove "cniVersion" kvs))))) "plugins"
      = mlookup kvs "plugins" := by
    rw [mlookup_mremove_ne _ _ (by decide), mlookup_mremove_ne _ _ (by decide),
      mlookup_mremove_ne _ _ (by decide), mlookup_mremove_ne _ _ (by decide),
      mlookup_mremove_ne _ _ (by decide)]
  have hotherNone : ∀ k : String, k ≠ "cniVersion" → k ≠ "cniVersions" → k ≠ "name" →
      k ≠ "disableCheck" → k ≠ "disableGC" → k ≠ "plugins" →
      mlookup kvs k = none := by
    intro k h1 h2 h3 h4 h5 h6
    cases hl : mlookup kvs k with
    | none => rfl
    | some v =>
      rcases h.keys_known (k, v) (mlookup_some_mem hl) with hk | hk | hk | hk | hk | hk <;>
        simp only at hk
      · exact absurd hk h1
      · exact absurd hk h2
      · exact absurd hk h3
      · exact absurd hk h4
      · exact absurd hk h5
      · exact absurd hk h6
  rcases h.versions_ok with hvs | ⟨velems, hvs, hvne, hvelems⟩
  · -- no cniVersions key
    refine ⟨⟨s, none, n, bc, bg, ps⟩, ?_, ?_⟩
    · simp only [CniPluginList.from_json_value, hcv, asStr, hcvparse, exceptBind_ok,
        e2, hvs, e3, hn, hnok, e4, hbc, asBool, e5, hbg, e6, hpe, hpeE,
        Bool.false_eq_true, if_false, hps]
    · simp only [CniPluginList.to_json_value, hemit, exceptBind_ok]
      congr 1
      congr 1
      have hsorted :
          SortedKeys (minsert "plugins" (.arr pe) (minsert "disableGC" (.bool bg)
            (minsert "disableCheck" (.bool bc) (minsert "name" (.str n)
              (minsert "cniVersion" (.str s) []))))) := by
        apply sortedKeys_minsert
        apply sortedKeys_minsert
        apply sortedKeys_minsert
        apply sortedKeys_minsert
        apply sortedKeys_minsert
        exact List.Pairwise.nil
      apply sorted_ext hsorted h.sorted
      intro k
      by_cases h1 : k = "cniVersion"
      · subst h1
        rw [mlookup_minsert_ne _ _ (by decide), mlookup_minsert_ne _ _ (by decide),
          mlookup_minsert_ne _ _ (by decide), mlookup_minsert_ne _ _ (by decide),
          mlookup_minsert_self, hcv]
      · by_cases h2 : k = "name"
        · subst h2
          rw [mlookup_minsert_ne _ _ (by decide), mlookup_minsert_ne _ _ (by decide),
            mlookup_minsert_ne _ _ (by decide), mlookup_minsert_self, hn]
        · by_cases h3 : k = "disableCheck"
          · subst h3
            rw [mlookup_minsert_ne _ _ (by decide), mlookup_minsert_ne _ _ (by decide),
              mlookup_minsert_self, hbc]
          · by_cases h4 : k = "disableGC"
            · subst h4
              rw [mlookup_minsert_ne _ _ (by decide), mlookup_minsert_self, hbg]
            · by_cases h5 : k = "plugins"
              · subst h5
                rw [mlookup_minsert_self, hpe]
              · by_cases h6 : k = "cniVersions"
                · subst h6
                  rw [mlookup_minsert_ne _ _ (by decide),
                    mlookup_minsert_ne _ _ (by decide),
                    mlookup_minsert_ne _ _ (by decide),
                    mlookup_minsert_ne _ _ (by decide),
                    mlookup_minsert_ne _ _ (by decide), mlookup_nil, hvs]
                · rw [mlookup_minsert_ne _ _ h5, mlookup_minsert_ne _ _ h4,
                    mlookup_minsert_ne _ _ h3, mlookup_minsert_ne _ _ h2,
                    mlookup_minsert_ne _ _ h1, mlookup_nil,
                    hotherNone k h1 h6 h2 h3 h4 h5]
  · -- cniVersions present and canonical
    obtain ⟨ss, hss, hmap⟩ := parseVersionElems_canonical velems hvelems
    have hssE : ss.isEmpty = false := by
      cases ss with
      | nil => rw [hmap] at hvne; exact absurd rfl hvne
      | cons _ _ => rfl
    refine ⟨⟨s, some ss, n, bc, bg, ps⟩, ?_, ?_⟩
    · simp only [CniPluginList.from_json_value, hcv, asStr, hcvparse, exceptBind_ok,
        e2, hvs, hss, hssE, Bool.false_eq_true, if_false, e3, hn, hnok, e4, hbc,
        asBool, e5, hbg, e6, hpe, hpeE, hps]
    · simp only [CniPluginList.to_json_value, hemit, exceptBind_ok]
      congr 1
      congr 1
      have hsorted :
          SortedKeys (minsert "plugins" (.arr pe) (minsert "disableGC" (.bool bg)
            (minsert "disableCheck" (.bool bc) (minsert "name" (.str n)
              (minsert "cniVersions" (.arr (ss.map Json.str))
                (minsert "cniVersion" (.str s) [])))))) := by
        apply sortedKeys_minsert
        apply sortedKeys_minsert
        apply sortedKeys_minsert
        apply sortedKeys_minsert
        apply sortedKeys_minsert
        apply sortedKeys_minsert
        exact List.Pairwise.nil
      apply sorted_ext hsorted h.sorted
      intro k
      by_cases h1 : k = "cniVersion"
      · subst h1
        rw [mlookup_minsert_ne _ _ (by decide), mlookup_minsert_ne _ _ (by decide),
          mlookup_minsert_ne _ _ (by decide), mlookup_minsert_ne _ _ (by decide),
          mlookup_minsert_ne _ _ (by decide), mlookup_minsert_self, hcv]
      · by_cases h6 : k = "cniVersions"
        · subst h6
          rw [mlookup_minsert_ne _ _ (by decide), mlookup_minsert_ne _ _ (by decide),
            mlookup_minsert_ne _ _ (by decide), mlookup_minsert_ne _ _ (by decide),
            mlookup_minsert_self, hvs, ← hmap]
        · by_cases h2 : k = "name"
          · subst h2
            rw [mlookup_minsert_ne _ _ (by decide), mlookup_minsert_ne _ _ (by decide),
              mlookup_minsert_ne _ _ (by decide), mlookup_minsert_self, hn]
          · by_cases h3 : k = "disableCheck"
            · subst h3
              rw [mlookup_minsert_ne _ _ (by decide),
                mlookup_minsert_ne _ _ (by decide), mlookup_minsert_self, hbc]
            · by_cases h4 : k = "disableGC"
              · subst h4
                rw [mlookup_minsert_ne _ _ (by decide), mlookup_minsert_self, hbg]
              · by_cases h5 : k = "plugins"
                · subst h5
                  rw [mlookup_minsert_self, hpe]
                · rw [mlookup_minsert_ne _ _ h5, mlookup_minsert_ne _ _ h4,
                    mlookup_minsert_ne _ _ h3, mlookup_minsert_ne _ _ h2,
                    mlookup_minsert_ne _ _ h6, mlookup_minsert_ne _ _ h1, mlookup_nil,
                    hotherNone k h1 h6 h2 h3 h4 h5]

/-- A canonical plugin-list document for the C6 witness. -/
def listDocWfKvs : List (String × Json) :=
  [("cniVersion", .str "1.0.0"), ("disableCheck", .bool false),
   ("disableGC", .bool true), ("name", .str "mynet"),
   ("plugins", .arr [.obj [("type", .str "bridge")]])]

/-- Witness for the amended C6 at a concrete canonical document. -/
theorem c6_amended_round_trip_on_canonical_docs_witness :
    ∃ l, CniPluginList.from_json_value (.obj listDocWfKvs) = .ok l
       ∧ CniPluginList.to_json_value l = .ok (.obj listDocWfKvs) :=
  c6_amended_round_trip_on_canonical_docs listDocWfKvs
    { sorted := by decide
      keys_known := by decide
      version_ok := ⟨"1.0.0", rfl, rfl⟩
      versions_ok := Or.inl rfl
      name_ok := ⟨"mynet", rfl, rfl⟩
      disable_check_ok := ⟨false, rfl⟩
      disable_gc_ok := ⟨true, rfl⟩
      plugins_ok := ⟨[.obj [("type", .str "bridge")]], rfl, by decide, by
        intro e he
        rw [List.mem_singleton] at he
        subst he
        refine ⟨[("type", .str "bridge")], rfl, by decide, ?_, ⟨"bridge", rfl⟩⟩
        intro kv hkv
        rw [List.mem_singleton] at hkv
        subst hkv
        exact ⟨fun _ => ⟨"bridge", rfl⟩, fun hc => absurd hc (by decide),
          fun hc => absurd hc (by decide)⟩⟩ }

end AsyncCni
